import Mathlib

/-!
Email queue service: queue, worker pool and retry / dead-letter engine

A shallow embedding of the Go sources

* `internal/core/domain/email.go`
* `internal/infrastructure/queue/memory/memory_queue.go`
* `internal/infrastructure/queue/redis/redis_queue.go`
* `internal/core/service/email.go`
* `internal/infrastructure/worker/worker_pool.go`
* `internal/interfaces/http/v1/handlers/email_handler.go`
* `internal/pkg/dlq/dlq.go`

Conventions.

* A Go call either returns, panics, or blocks its goroutine; `Go α` records which.
* A Go `error` is `Option String`: `none` is `nil`, `some msg` is an error whose
  `Error()` text is `msg` (wrapping with `%w` concatenates the texts).
* Mutable receivers become explicit state passing: a method returns the new state.
* The mutexes serialise the methods; the embedding is the sequential semantics of
  one method call at a time. `MemoryQueue.Dequeue` takes no mutex, so a goroutine can
  be parked in it while `Enqueue` runs: `MemoryQueue.EnqueueParked` takes the number
  of such goroutines, and `MemoryQueue.Enqueue` is the call with none.
* Readings of the environment (the random draw, the clock) are parameters.
* Logger calls have no effect on the modelled state and are left out.
-/

namespace EmailQueue

/-! ## Go outcomes -/

/-- Outcome of a Go call: a normal return, a panic, or a goroutine blocked for ever
(when nothing else runs). -/
inductive Go (α : Type) where
  | ret (a : α)
  | panics
  | blocks
  deriving DecidableEq, Repr

/-- A Go `error` value, identified with its `Error()` text; `none` is `nil`. -/
abbrev GoError := Option String

/-! ## internal/core/domain/email.go -/

/-- `domain.EmailJob`. -/
structure EmailJob where
  To : String
  Subject : String
  Body : String
  Retries : Int
  deriving DecidableEq, Repr

/-- The zero value `domain.EmailJob{}`. -/
def EmailJob.zero : EmailJob := ⟨"", "", "", 0⟩

/-- `EmailJob.Validate`; `parseAddress` stands for the error result of the standard
library's `mail.ParseAddress`. -/
def EmailJob.Validate (parseAddress : String → GoError) (j : EmailJob) : GoError :=
  if j.To = "" then some "recipient 'to' field is required"
  else if j.Subject = "" then some "subject field is required"
  else if j.Body = "" then some "body field is required"
  else
    match parseAddress j.To with
    | some err => some ("invalid email format for 'to' field: " ++ err)
    | none => none

/-! ## Buffered channels of jobs -/

/-- A buffered Go channel `chan domain.EmailJob`: the buffered values (oldest first),
the capacity given to `make`, and whether `close` has been called. -/
structure Chan where
  buf : List EmailJob
  cap : Nat
  closed : Bool
  deriving DecidableEq, Repr

/-- The largest capacity `make(chan domain.EmailJob, n)` accepts on a 64-bit
platform with a 48-bit heap (linux/amd64): the buffer of `n` elements of 56 bytes
(three strings and an `int`) and the 96-byte channel header must fit in `1 << 48`
bytes. -/
def Chan.maxCap : Nat := (2 ^ 48 - 96) / 56

/-- `make(chan domain.EmailJob, capacity)`; panics ("makechan: size out of range")
for a negative capacity and for one beyond `Chan.maxCap`. -/
def Chan.make (capacity : Int) : Go Chan :=
  if capacity < 0 ∨ (Chan.maxCap : Int) < capacity then .panics
  else .ret ⟨[], capacity.toNat, false⟩

/-- Result of `select { case ch <- v: ...; default: ... }`: the value went into the
buffer (`sent`), it was handed straight to a goroutine parked in a receive
(`handed`), the `default` branch ran (`dflt`), or the send panicked. -/
inductive SelectSend where
  | sent (c : Chan)
  | handed
  | dflt
  | panics
  deriving DecidableEq, Repr

/-- A non-blocking send. `parked` is the number of goroutines parked in a receive on
the channel when the send runs (a receiver parks only on an empty open channel). The
send panics on a closed channel; with a parked receiver it succeeds by handing the
value to that receiver, whatever the capacity, and the buffer is not touched;
otherwise it succeeds when the buffer has room and takes the `default` branch when
it has none. -/
def Chan.selectSend (c : Chan) (v : EmailJob) (parked : Nat) : SelectSend :=
  if c.closed then .panics
  else if 0 < parked then .handed
  else if c.buf.length < c.cap then .sent { c with buf := c.buf ++ [v] }
  else .dflt

/-- The receive `v, ok := <-ch`: the oldest buffered value with `ok = true`; on an
empty closed channel the zero value with `ok = false`; on an empty open channel the
receiver blocks. -/
def Chan.recv (c : Chan) : Go ((EmailJob × Bool) × Chan) :=
  match c.buf with
  | v :: rest => .ret ((v, true), { c with buf := rest })
  | [] => if c.closed then .ret ((EmailJob.zero, false), c) else .blocks

/-- The statement `close(ch)`; panics when the channel is already closed. -/
def Chan.close (c : Chan) : Go Chan :=
  if c.closed then .panics else .ret { c with closed := true }

/-! ## internal/infrastructure/queue/memory/memory_queue.go -/

/-- `memory.MemoryQueue`; `queueLengthGauge` is the value of the Prometheus gauge. -/
structure MemoryQueue where
  Jobs : Chan
  capacity : Int
  closed : Bool
  queueLengthGauge : Int
  deriving DecidableEq, Repr

/-- Error text of `Enqueue` on a closed queue (both variants). -/
def errQueueClosed : String := "queue is closed, cannot enqueue new jobs"

/-- Error text of `MemoryQueue.Enqueue` on a full queue. -/
def errQueueFull : String := "queue is full, cannot enqueue job"

/-- `NewMemoryQueue`. -/
def NewMemoryQueue (capacity : Int) : Go MemoryQueue :=
  match Chan.make capacity with
  | .ret c => .ret { Jobs := c, capacity := capacity, closed := false, queueLengthGauge := 0 }
  | .panics => .panics
  | .blocks => .blocks

/-- `MemoryQueue.Enqueue`, run while `parked` goroutines are parked in `Dequeue`
(which takes no mutex, so a worker can wait in it during the call). A job handed to
a parked worker leaves the queue state: that worker resumes with it. -/
def MemoryQueue.EnqueueParked (q : MemoryQueue) (job : EmailJob) (parked : Nat) :
    Go (GoError × MemoryQueue) :=
  if q.closed then .ret (some errQueueClosed, q)
  else
    match q.Jobs.selectSend job parked with
    | .sent c => .ret (none, { q with Jobs := c, queueLengthGauge := q.queueLengthGauge + 1 })
    | .handed => .ret (none, { q with queueLengthGauge := q.queueLengthGauge + 1 })
    | .dflt => .ret (some errQueueFull, q)
    | .panics => .panics

/-- `MemoryQueue.Enqueue` when no goroutine is parked in `Dequeue`, which is the case
whenever the calls on the queue do not overlap. -/
def MemoryQueue.Enqueue (q : MemoryQueue) (job : EmailJob) : Go (GoError × MemoryQueue) :=
  q.EnqueueParked job 0

/-- `MemoryQueue.Dequeue`. -/
def MemoryQueue.Dequeue (q : MemoryQueue) : Go ((EmailJob × Bool) × MemoryQueue) :=
  match q.Jobs.recv with
  | .ret ((job, ok), c) =>
      if ok then .ret ((job, ok), { q with Jobs := c, queueLengthGauge := q.queueLengthGauge - 1 })
      else .ret ((job, ok), { q with Jobs := c })
  | .panics => .panics
  | .blocks => .blocks

/-- `MemoryQueue.Close`. -/
def MemoryQueue.Close (q : MemoryQueue) : Go MemoryQueue :=
  if !q.closed then
    match q.Jobs.close with
    | .ret c => .ret { q with Jobs := c, closed := true }
    | .panics => .panics
    | .blocks => .blocks
  else .ret q

/-- `MemoryQueue.IsClosed`. -/
def MemoryQueue.IsClosed (q : MemoryQueue) : Bool := q.closed

/-- The representation invariant of a `MemoryQueue` built by `NewMemoryQueue` and
changed only through its methods: the flag mirrors the channel, the recorded capacity
is the channel's, and the buffer never exceeds it. -/
def MemoryQueue.WF (q : MemoryQueue) : Prop :=
  q.Jobs.closed = q.closed ∧ q.capacity = (q.Jobs.cap : Int) ∧ q.Jobs.buf.length ≤ q.Jobs.cap

instance (q : MemoryQueue) : Decidable q.WF := by
  unfold MemoryQueue.WF; infer_instance

/-! ## internal/infrastructure/queue/redis/redis_queue.go -/

/-- An element of the Redis list `email_jobs_queue`: the JSON encoding of a job
(`json.Marshal` of the four fields, which `json.Unmarshal` reads back), or bytes
that do not decode to a job. -/
inductive RedisValue where
  | json (job : EmailJob)
  | raw (bytes : String)
  deriving DecidableEq, Repr

/-- The go-redis client together with the server-side list it reaches: `list` holds
the elements head first, `fault` is the error with which commands currently fail
(`none` for a healthy connection). -/
structure RedisClient where
  list : List RedisValue
  fault : Option String
  deriving DecidableEq, Repr

/-- Error text of go-redis commands issued after `client.Close()`. -/
def errRedisClientClosed : String := "redis: client is closed"

/-- The command `RPUSH email_jobs_queue v`: appends at the tail. -/
def RedisClient.RPush (c : RedisClient) (v : RedisValue) : GoError × RedisClient :=
  match c.fault with
  | some err => (some err, c)
  | none => (none, { c with list := c.list ++ [v] })

/-- The command `BLPOP email_jobs_queue 0`: pops the head, waiting without timeout
while the list is empty. -/
def RedisClient.BLPop (c : RedisClient) : Go ((GoError × Option RedisValue) × RedisClient) :=
  match c.fault with
  | some err => .ret ((some err, none), c)
  | none =>
    match c.list with
    | v :: rest => .ret ((none, some v), { c with list := rest })
    | [] => .blocks

/-- The call `client.Close()`: later commands fail with `errRedisClientClosed`. -/
def RedisClient.Close (c : RedisClient) : RedisClient :=
  { c with fault := some errRedisClientClosed }

/-- `redis.RedisQueue`. -/
structure RedisQueue where
  client : RedisClient
  queueLengthGauge : Int
  closed : Bool
  deriving DecidableEq, Repr

/-- `RedisQueue.Enqueue`; `json.Marshal` of a job cannot fail. -/
def RedisQueue.Enqueue (q : RedisQueue) (job : EmailJob) : Go (GoError × RedisQueue) :=
  if q.closed then .ret (some errQueueClosed, q)
  else
    match q.client.RPush (.json job) with
    | (some err, c) => .ret (some ("failed to enqueue job to Redis: " ++ err), { q with client := c })
    | (none, c) => .ret (none, { q with client := c, queueLengthGauge := q.queueLengthGauge + 1 })

/-- `RedisQueue.Dequeue`. -/
def RedisQueue.Dequeue (q : RedisQueue) : Go ((EmailJob × Bool) × RedisQueue) :=
  match q.client.BLPop with
  | .ret ((some _, _), c) => .ret ((EmailJob.zero, false), { q with client := c })
  | .ret ((none, some (.json job)), c) =>
      .ret ((job, true), { q with client := c, queueLengthGauge := q.queueLengthGauge - 1 })
  | .ret ((none, _), c) => .ret ((EmailJob.zero, false), { q with client := c })
  | .panics => .panics
  | .blocks => .blocks

/-- `RedisQueue.Close`. -/
def RedisQueue.Close (q : RedisQueue) : RedisQueue :=
  if !q.closed then { q with client := q.client.Close, closed := true } else q

/-- `RedisQueue.IsClosed`. -/
def RedisQueue.IsClosed (q : RedisQueue) : Bool := q.closed

/-! ## internal/core/ports/queue.go -/

/-- A value of the interface `ports.Queue`: one of its two implementations. -/
inductive Queue where
  | memory (q : MemoryQueue)
  | redis (q : RedisQueue)
  deriving DecidableEq, Repr

/-- Dynamic dispatch of `Enqueue`. -/
def Queue.Enqueue : Queue → EmailJob → Go (GoError × Queue)
  | .memory q, job =>
    match q.Enqueue job with
    | .ret (e, q1) => .ret (e, .memory q1)
    | .panics => .panics
    | .blocks => .blocks
  | .redis q, job =>
    match q.Enqueue job with
    | .ret (e, q1) => .ret (e, .redis q1)
    | .panics => .panics
    | .blocks => .blocks

/-- Dynamic dispatch of `Dequeue`. -/
def Queue.Dequeue : Queue → Go ((EmailJob × Bool) × Queue)
  | .memory q =>
    match q.Dequeue with
    | .ret (r, q1) => .ret (r, .memory q1)
    | .panics => .panics
    | .blocks => .blocks
  | .redis q =>
    match q.Dequeue with
    | .ret (r, q1) => .ret (r, .redis q1)
    | .panics => .panics
    | .blocks => .blocks

/-- Dynamic dispatch of `Close`. -/
def Queue.Close : Queue → Go Queue
  | .memory q =>
    match q.Close with
    | .ret q1 => .ret (.memory q1)
    | .panics => .panics
    | .blocks => .blocks
  | .redis q => .ret (.redis q.Close)

/-- Dynamic dispatch of `IsClosed`. -/
def Queue.IsClosed : Queue → Bool
  | .memory q => q.IsClosed
  | .redis q => q.IsClosed

/-- The jobs a queue holds, oldest first (for the Redis variant, the list elements
that decode to a job). -/
def Queue.buffered : Queue → List EmailJob
  | .memory q => q.Jobs.buf
  | .redis q => q.client.list.filterMap fun v =>
      match v with
      | .json job => some job
      | .raw _ => none

/-- The value of the queue-depth gauge. -/
def Queue.gauge : Queue → Int
  | .memory q => q.queueLengthGauge
  | .redis q => q.queueLengthGauge

/-! ## internal/pkg/dlq/dlq.go -/

/-- `dlq.dlqEntry`; the timestamp is the clock reading in arbitrary units. -/
structure dlqEntry where
  Job : EmailJob
  Reason : String
  Timestamp : Nat
  deriving DecidableEq, Repr

/-- `dlq.InMemoryDLQ`. -/
structure InMemoryDLQ where
  failedJobs : List dlqEntry
  deriving DecidableEq, Repr

/-- `NewInMemoryDLQ`. -/
def NewInMemoryDLQ : InMemoryDLQ := ⟨[]⟩

/-- `InMemoryDLQ.Store`; `now` is the value of `time.Now()`. -/
def InMemoryDLQ.Store (d : InMemoryDLQ) (job : EmailJob) (reason : String) (now : Nat) :
    InMemoryDLQ :=
  { d with failedJobs := d.failedJobs ++ [⟨job, reason, now⟩] }

/-! ## internal/core/service/email.go -/

/-- The five counters of `internal/pkg/metrics`, as names of the signal that an
`Inc()` call on each of them emits. -/
inductive Signal where
  | enqueued
  | processed
  | failed
  | retried
  | deadLettered
  deriving DecidableEq, Repr

/-- A one-shot timer armed by `time.AfterFunc`: the delay and the job captured by
the closure that re-enqueues it. -/
structure Timer where
  delaySeconds : Int
  job : EmailJob
  deriving DecidableEq, Repr

/-- `service.emailService` together with the state it reaches through its fields:
the queue, the dead-letter queue, the values of the five counters, the observations
of the duration histogram, and the configuration. Two further components record what
the Go runtime holds: `timers`, the `time.AfterFunc` timers armed and not yet fired,
and `signals`, the counter increments in the order they were made. -/
structure emailService where
  queue : Queue
  dlq : InMemoryDLQ
  enqueuedCounter : Nat
  processedCounter : Nat
  failedCounter : Nat
  retriedCounter : Nat
  dlqCounter : Nat
  processingDurationGauge : List Nat
  maxRetries : Int
  retryDelaySeconds : Int
  timers : List Timer
  signals : List Signal
  deriving DecidableEq, Repr

/-- `NewEmailService` on fresh counters. -/
def NewEmailService (q : Queue) (dlq : InMemoryDLQ) (maxRetries retryDelaySeconds : Int) :
    emailService :=
  { queue := q, dlq := dlq, enqueuedCounter := 0, processedCounter := 0, failedCounter := 0,
    retriedCounter := 0, dlqCounter := 0, processingDurationGauge := [],
    maxRetries := maxRetries, retryDelaySeconds := retryDelaySeconds, timers := [],
    signals := [] }

/-- `emailService.EnqueueEmail`. -/
def emailService.EnqueueEmail (s : emailService) (job : EmailJob) : Go (GoError × emailService) :=
  match s.queue.Enqueue job with
  | .ret (some err, q) =>
      .ret (some ("failed to enqueue email: " ++ err),
        { s with queue := q, failedCounter := s.failedCounter + 1,
                 signals := s.signals ++ [.failed] })
  | .ret (none, q) =>
      .ret (none,
        { s with queue := q, enqueuedCounter := s.enqueuedCounter + 1,
                 signals := s.signals ++ [.enqueued] })
  | .panics => .panics
  | .blocks => .blocks

/-- The text `fmt.Sprintf("Permanently failed after %d retries", retries)`. -/
def reasonPermanent (retries : Int) : String :=
  "Permanently failed after " ++ toString retries ++ " retries"

/-- The text `fmt.Sprintf("Failed to re-enqueue after %d retries: %v", retries, err)`. -/
def reasonReenqueue (retries : Int) (err : String) : String :=
  "Failed to re-enqueue after " ++ toString retries ++ " retries: " ++ err

/-- `emailService.ProcessEmailJob`. The parameters are the readings of the
environment: `draw` is the value of `rand.Intn(100)`, `elapsed` that of
`time.Since(start)`, `now` that of `time.Now()` inside `Store`. The increment
`job.Retries++` is reached only when `job.Retries < s.maxRetries`, so it does not
overflow. The `time.AfterFunc` call only arms a timer: its closure runs later, as
`emailService.retryClosure`. -/
def emailService.ProcessEmailJob (s : emailService) (job : EmailJob) (draw elapsed now : Nat) :
    emailService :=
  let success := decide (draw < 80)
  if success then
    { s with processedCounter := s.processedCounter + 1,
             signals := s.signals ++ [.processed],
             processingDurationGauge := s.processingDurationGauge ++ [elapsed] }
  else
    let s1 : emailService :=
      { s with failedCounter := s.failedCounter + 1,
               signals := s.signals ++ [.failed],
               processingDurationGauge := s.processingDurationGauge ++ [elapsed] }
    if job.Retries < s1.maxRetries then
      let job1 : EmailJob := { job with Retries := job.Retries + 1 }
      { s1 with retriedCounter := s1.retriedCounter + 1,
                signals := s1.signals ++ [.retried],
                timers := s1.timers ++ [⟨s1.retryDelaySeconds, job1⟩] }
    else
      { s1 with dlq := s1.dlq.Store job (reasonPermanent job.Retries) now,
                dlqCounter := s1.dlqCounter + 1,
                signals := s1.signals ++ [.deadLettered] }

/-- The closure passed to `time.AfterFunc` in `ProcessEmailJob`, for the captured
`job`, run when its timer fires. -/
def emailService.retryClosure (s : emailService) (job : EmailJob) (now : Nat) : Go emailService :=
  match s.queue.Enqueue job with
  | .ret (some err, q) =>
      .ret { s with queue := q,
                    dlq := s.dlq.Store job (reasonReenqueue job.Retries err) now,
                    dlqCounter := s.dlqCounter + 1,
                    signals := s.signals ++ [.deadLettered] }
  | .ret (none, q) => .ret { s with queue := q }
  | .panics => .panics
  | .blocks => .blocks

/-- The oldest armed timer fires: it leaves the runtime and its closure runs.
No armed timer: nothing happens. -/
def emailService.fireTimer (s : emailService) (now : Nat) : Go emailService :=
  match s.timers with
  | [] => .ret s
  | t :: rest => emailService.retryClosure { s with timers := rest } t.job now

/-! ## internal/infrastructure/worker/worker_pool.go -/

/-- `worker.WorkerPool`: the number of workers and whether `stopChan` is closed. -/
structure WorkerPool where
  numWorkers : Int
  stopChanClosed : Bool
  deriving DecidableEq, Repr

/-- `NewWorkerPool`. -/
def NewWorkerPool (numWorkers : Int) : WorkerPool := ⟨numWorkers, false⟩

/-- How far a worker goroutine got. -/
inductive WorkerStatus where
  | exited
  | blocked
  | panicked
  | looping
  deriving DecidableEq, Repr

/-- A run of a worker: its status, the jobs it passed to `processor` in order, the
number of `Dequeue` calls it made, and the state it left. -/
structure WorkerRun where
  status : WorkerStatus
  handled : List EmailJob
  dequeues : Nat
  state : emailService
  deriving DecidableEq, Repr

/-- `WorkerPool.worker`, for at most `fuel` iterations of its `for` loop; the status
`looping` says that the loop has not ended within them. The pool's `jobQueue` is the
queue of the service, as `main` wires it. In the `select`, the `default` branch runs
only when no other case is ready, and a receive from the closed `stopChan` is always
ready: its branch only logs, and the loop goes round again. -/
def WorkerPool.worker (wp : WorkerPool) (processor : EmailJob → emailService → emailService) :
    Nat → emailService → WorkerRun
  | 0, s => ⟨.looping, [], 0, s⟩
  | fuel + 1, s =>
    if wp.stopChanClosed then
      WorkerPool.worker wp processor fuel s
    else
      match s.queue.Dequeue with
      | .ret ((job, ok), q) =>
        if !ok then ⟨.exited, [], 1, { s with queue := q }⟩
        else
          let r := WorkerPool.worker wp processor fuel (processor job { s with queue := q })
          ⟨r.status, job :: r.handled, r.dequeues + 1, r.state⟩
      | .blocks => ⟨.blocked, [], 1, s⟩
      | .panics => ⟨.panicked, [], 1, s⟩

/-- The first statement of `WorkerPool.Stop`, `close(wp.stopChan)`; the rest of
`Stop` waits for every worker to return. -/
def WorkerPool.Stop (wp : WorkerPool) : Go WorkerPool :=
  if wp.stopChanClosed then .panics else .ret { wp with stopChanClosed := true }

/-! ## internal/interfaces/http/v1/handlers/email_handler.go -/

/-- An HTTP request as `SendEmail` reads it: the method, and the result of decoding
the body as JSON into a `domain.EmailJob` (`none` when decoding fails). -/
structure Request where
  Method : String
  Body : Option EmailJob
  deriving DecidableEq, Repr

/-- The statuses `SendEmail` writes. -/
def StatusAccepted : Nat := 202
def StatusBadRequest : Nat := 400
def StatusMethodNotAllowed : Nat := 405
def StatusUnprocessableEntity : Nat := 422
def StatusInternalServerError : Nat := 500
def StatusServiceUnavailable : Nat := 503

/-- The branch of `SendEmail` taken when `EnqueueEmail` returns the error with
text `msg`. -/
def enqueueErrorStatus (msg : String) : Nat :=
  if msg = "failed to enqueue email: queue is full, cannot enqueue job" then
    StatusServiceUnavailable
  else if msg = "failed to enqueue email: failed to enqueue job to Redis: redis: client is closed" then
    StatusServiceUnavailable
  else StatusInternalServerError

/-- `EmailHandler.SendEmail`: the status written and the service state left. -/
def SendEmail (parseAddress : String → GoError) (s : emailService) (r : Request) :
    Go (Nat × emailService) :=
  if r.Method ≠ "POST" then .ret (StatusMethodNotAllowed, s)
  else
    match r.Body with
    | none => .ret (StatusBadRequest, s)
    | some job =>
      match job.Validate parseAddress with
      | some _ => .ret (StatusUnprocessableEntity, s)
      | none =>
        let job0 : EmailJob := { job with Retries := 0 }
        match s.EnqueueEmail job0 with
        | .ret (some msg, s1) => .ret (enqueueErrorStatus msg, s1)
        | .ret (none, s1) => .ret (StatusAccepted, s1)
        | .panics => .panics
        | .blocks => .blocks

/-! ## Executions of the running service

`main` starts the workers on `emailService.ProcessEmailJob` and the runtime fires the
armed timers. An execution interleaves loop iterations of a running worker with timer
firings; the environment supplies the readings of each step and the scheduling. A
worker that finds the queue empty is taken as not yet parked in `Dequeue`: the
`Enqueue` of a firing timer buffers the job and the next worker iteration takes it,
which on a queue of capacity at least 1 hands the worker the same job as a direct
hand-off to a parked worker would. -/

/-- The environment of an execution, indexed by step: the random draw, the elapsed
time and the clock reading of that step, and whether the scheduler looks at the
timers before the worker. -/
structure Env where
  draw : Nat → Nat
  elapsed : Nat → Nat
  now : Nat → Nat
  timerFirst : Nat → Bool

/-- One step of an execution. -/
inductive Action where
  | processed (job : EmailJob)
  | fired (job : EmailJob)
  deriving DecidableEq, Repr

/-- One iteration of the loop of a worker of a pool that has not been stopped, with
`ProcessEmailJob` as processor; `none` when the worker does not hand a job over
(it blocks in `Dequeue`, or returns). -/
def System.workerStep (env : Env) (n : Nat) (s : emailService) : Option (Action × emailService) :=
  let r := (NewWorkerPool 1).worker
    (fun job st => st.ProcessEmailJob job (env.draw n) (env.elapsed n) (env.now n)) 1 s
  match r.status, r.handled with
  | .looping, [job] => some (.processed job, r.state)
  | _, _ => none

/-- The oldest armed timer fires; `none` when no timer is armed (or the closure
panics). -/
def System.timerStep (env : Env) (n : Nat) (s : emailService) : Option (Action × emailService) :=
  match s.timers with
  | [] => none
  | t :: _ =>
    match s.fireTimer (env.now n) with
    | .ret s1 => some (.fired t.job, s1)
    | _ => none

/-- Step `n` of an execution: whichever of the worker and the timer the scheduler
prefers and that can move; `none` when neither can. -/
def System.step (env : Env) (n : Nat) (s : emailService) : Option (Action × emailService) :=
  if env.timerFirst n then
    match System.timerStep env n s with
    | some r => some r
    | none => System.workerStep env n s
  else
    match System.workerStep env n s with
    | some r => some r
    | none => System.timerStep env n s

/-- At most `fuel` steps of an execution from step number `n`: the actions taken and
the state reached. The execution ends early when no step is possible. -/
def System.run (env : Env) : Nat → Nat → emailService → List Action × emailService
  | 0, _, s => ([], s)
  | fuel + 1, n, s =>
    match System.step env n s with
    | none => ([], s)
    | some (a, s1) =>
      let r := System.run env fuel (n + 1) s1
      (a :: r.1, r.2)

/-- The jobs on which `ProcessEmailJob` ran, in order. -/
def attempts : List Action → List EmailJob
  | [] => []
  | .processed job :: rest => job :: attempts rest
  | .fired _ :: rest => attempts rest

/-- The text of the error `EnqueueEmail` returns when `Queue.Enqueue` fails with
text `err`: `fmt.Errorf("failed to enqueue email: %w", err)`. -/
def wrapEnqueueError (err : String) : String := "failed to enqueue email: " ++ err

/-- The text of the error `RedisQueue.Enqueue` returns when `RPUSH` fails with
text `err`: `fmt.Errorf("failed to enqueue job to Redis: %w", err)`. -/
def wrapRedisError (err : String) : String := "failed to enqueue job to Redis: " ++ err

/-- The calls `Enqueue(j1)`, ..., `Enqueue(jk)` in order, each returning `nil`: the
queue they leave, or `none` when one of them fails. -/
def MemoryQueue.enqueueAll : MemoryQueue → List EmailJob → Option MemoryQueue
  | q, [] => some q
  | q, j :: js =>
    match q.Enqueue j with
    | .ret (none, q1) => MemoryQueue.enqueueAll q1 js
    | _ => none

/-- The results of `n` successive `Dequeue` calls, in order. -/
def MemoryQueue.dequeueN : MemoryQueue → Nat → Go (List (EmailJob × Bool) × MemoryQueue)
  | q, 0 => .ret ([], q)
  | q, n + 1 =>
    match q.Dequeue with
    | .ret (r, q1) =>
      match MemoryQueue.dequeueN q1 n with
      | .ret (rs, q2) => .ret (r :: rs, q2)
      | .panics => .panics
      | .blocks => .blocks
    | .panics => .panics
    | .blocks => .blocks

/-- An open queue in working order that holds exactly `held`: for the in-memory
variant a well-formed open queue of capacity at least 1 with that buffer, for the
Redis variant an open queue on a healthy connection with that list. -/
def Queue.Ready (q : Queue) (held : List EmailJob) : Prop :=
  match q with
  | .memory m => m.WF ∧ m.closed = false ∧ m.Jobs.buf = held ∧ 0 < m.Jobs.cap
  | .redis r => r.closed = false ∧ r.client.fault = none ∧ r.client.list = held.map RedisValue.json

/-- The jobs of the successive attempts on `job` when `d` retries follow the first
attempt: `job` itself, then `job` with `Retries` one greater, and so on. -/
def retryAttempts (job : EmailJob) : Nat → List EmailJob
  | 0 => [job]
  | d + 1 => job :: retryAttempts { job with Retries := job.Retries + 1 } d

/-- An environment in which every delivery fails. -/
def failingEnv : Env := ⟨fun _ => 99, fun _ => 1, fun n => n, fun _ => false⟩

/-- A sample job. -/
def sampleJob : EmailJob := ⟨"a@b.c", "hello", "text", 0⟩

/-- A sample in-memory queue of capacity 2 holding the given jobs. -/
def sampleQueue (held : List EmailJob) (closed : Bool) : MemoryQueue :=
  ⟨⟨held, 2, closed⟩, 2, closed, held.length⟩

/-- A service on an open Redis queue whose client has been closed. -/
def redisFaultService : emailService :=
  NewEmailService (.redis ⟨⟨[], some errRedisClientClosed⟩, 0, false⟩) NewInMemoryDLQ 3 5

/-- A parser standing for `mail.ParseAddress` that accepts every address. -/
def acceptAll : String → GoError := fun _ => none

/-- A fresh service on the sample in-memory queue, open and holding `held`. -/
def sampleService (held : List EmailJob) (maxRetries : Int) : emailService :=
  NewEmailService (.memory (sampleQueue held false)) NewInMemoryDLQ maxRetries 5

/-- A fresh service on the sample in-memory queue, closed and empty. -/
def closedService : emailService :=
  NewEmailService (.memory (sampleQueue [] true)) NewInMemoryDLQ 3 5

/-! ## internal/pkg/config/config.go -/

/-- `config.Config`. -/
structure Config where
  HTTPPort : Int
  WorkerCount : Int
  QueueCapacity : Int
  MaxRetries : Int
  RetryDelaySeconds : Int
  UseRedisQueue : Bool
  RedisAddr : String
  RedisPassword : String
  RedisDB : Int
  deriving DecidableEq, Repr

/-- The standard library's `strconv.Atoi` on a 64-bit platform: an optional sign,
then one or more decimal digits, denoting a value in the range of `int`; `none`
stands for a non-nil error. -/
def Atoi (s : String) : Option Int :=
  let signed : Bool × List Char :=
    match s.data with
    | '-' :: rest => (true, rest)
    | '+' :: rest => (false, rest)
    | cs => (false, cs)
  if signed.2.isEmpty || !signed.2.all Char.isDigit then none
  else
    let n : Int := signed.2.foldl (fun acc c => 10 * acc + ((c.toNat - 48 : Nat) : Int)) 0
    let v : Int := if signed.1 then -n else n
    if v < -9223372036854775808 ∨ 9223372036854775807 < v then none else some v

/-- `LoadConfig`; `atoi` stands for `strconv.Atoi` (`none` for a non-nil error) and
`getenv` for `os.Getenv` (the empty string for an unset variable). -/
def LoadConfig (atoi : String → Option Int) (getenv : String → String) : Config :=
  let httpPort : Int :=
    match atoi (getenv "HTTP_PORT") with
    | none => 8080
    | some v => if v = 0 then 8080 else v
  let workerCount : Int :=
    match atoi (getenv "WORKER_COUNT") with
    | none => 3
    | some v => if v = 0 then 3 else v
  let queueCapacity : Int :=
    match atoi (getenv "QUEUE_CAPACITY") with
    | none => 100
    | some v => if v = 0 then 100 else v
  let maxRetries : Int :=
    match atoi (getenv "MAX_RETRIES") with
    | none => 3
    | some v => if v < 0 then 3 else v
  let retryDelaySeconds : Int :=
    match atoi (getenv "RETRY_DELAY_SECONDS") with
    | none => 5
    | some v => if v ≤ 0 then 5 else v
  let useRedisQueue : Bool := getenv "USE_REDIS_QUEUE" == "true"
  let redisAddr : String :=
    if useRedisQueue && getenv "REDIS_ADDR" == "" then "localhost:6379" else getenv "REDIS_ADDR"
  let redisDB : Int :=
    match atoi (getenv "REDIS_DB") with
    | none => 0
    | some v => v
  { HTTPPort := httpPort, WorkerCount := workerCount, QueueCapacity := queueCapacity,
    MaxRetries := maxRetries, RetryDelaySeconds := retryDelaySeconds,
    UseRedisQueue := useRedisQueue, RedisAddr := redisAddr,
    RedisPassword := getenv "REDIS_PASSWORD", RedisDB := redisDB }

/-- An environment in which only `QUEUE_CAPACITY` and `WORKER_COUNT` are set, to
negative numbers. -/
def negativeEnviron : String → String := fun name =>
  if name = "QUEUE_CAPACITY" then "-1" else if name = "WORKER_COUNT" then "-2" else ""

/-! ## Sequences of calls -/

/-- A call of one of the four methods of `ports.Queue`. -/
inductive QueueOp where
  | enqueue (job : EmailJob)
  | dequeue
  | close
  | isClosed
  deriving DecidableEq, Repr

/-- One call on a queue, keeping the state it leaves. -/
def Queue.call (q : Queue) : QueueOp → Go Queue
  | .enqueue job =>
    match q.Enqueue job with
    | .ret (_, q1) => .ret q1
    | .panics => .panics
    | .blocks => .blocks
  | .dequeue =>
    match q.Dequeue with
    | .ret (_, q1) => .ret q1
    | .panics => .panics
    | .blocks => .blocks
  | .close => q.Close
  | .isClosed => .ret q

/-- A sequence of calls on a queue, one after the other. -/
def Queue.exec : Queue → List QueueOp → Go Queue
  | q, [] => .ret q
  | q, op :: ops =>
    match q.call op with
    | .ret q1 => Queue.exec q1 ops
    | .panics => .panics
    | .blocks => .blocks

/-- The representation invariant of a queue of either variant: that of the in-memory
queue; none is needed for the Redis queue. -/
def Queue.WF : Queue → Prop
  | .memory m => m.WF
  | .redis _ => True

/-- A sequence of `Store` calls, each given as job, reason and clock reading. -/
def InMemoryDLQ.storeAll : InMemoryDLQ → List (EmailJob × String × Nat) → InMemoryDLQ
  | d, [] => d
  | d, c :: rest => InMemoryDLQ.storeAll (d.Store c.1 c.2.1 c.2.2) rest

/-- The signals of the attempts on a job whose delivery always fails, `d` retries
short of the limit: failed then retried for each attempt that is retried, then failed
and dead-lettered for the last. -/
def failingSignals : Nat → List Signal
  | 0 => [.failed, .deadLettered]
  | d + 1 => .failed :: .retried :: failingSignals d

/-! ## The in-memory queue -/

theorem MemoryQueue.Enqueue_open_room (q : MemoryQueue) (job : EmailJob) (hwf : q.WF)
    (hopen : q.closed = false) (hroom : q.Jobs.buf.length < q.Jobs.cap) :
    q.Enqueue job = .ret (none,
      { q with Jobs := { q.Jobs with buf := q.Jobs.buf ++ [job] },
               queueLengthGauge := q.queueLengthGauge + 1 }) := by
  obtain ⟨hc, -, -⟩ := hwf
  simp [MemoryQueue.Enqueue, MemoryQueue.EnqueueParked, Chan.selectSend, hopen, hc, hroom]

theorem MemoryQueue.Enqueue_open_full (q : MemoryQueue) (job : EmailJob) (hwf : q.WF)
    (hopen : q.closed = false) (hfull : q.Jobs.cap ≤ q.Jobs.buf.length) :
    q.Enqueue job = .ret (some errQueueFull, q) := by
  obtain ⟨hc, -, -⟩ := hwf
  simp [MemoryQueue.Enqueue, MemoryQueue.EnqueueParked, Chan.selectSend, hopen, hc, Nat.not_lt.mpr hfull]

theorem MemoryQueue.Enqueue_closed (q : MemoryQueue) (job : EmailJob) (hclosed : q.closed = true) :
    q.Enqueue job = .ret (some errQueueClosed, q) := by
  simp [MemoryQueue.Enqueue, MemoryQueue.EnqueueParked, hclosed]

/-- A successful `Enqueue` keeps the invariant and appends the job at the tail. -/
theorem MemoryQueue.Enqueue_ok (q q1 : MemoryQueue) (job : EmailJob) (hwf : q.WF)
    (h : q.Enqueue job = .ret (none, q1)) :
    q1.WF ∧ q1.closed = false ∧ q1.Jobs.buf = q.Jobs.buf ++ [job] := by
  obtain ⟨hc, hcap, hlen⟩ := hwf
  cases hcl : q.closed with
  | true => simp [MemoryQueue.Enqueue, MemoryQueue.EnqueueParked, hcl] at h
  | false =>
    by_cases hroom : q.Jobs.buf.length < q.Jobs.cap
    · rw [MemoryQueue.Enqueue_open_room q job ⟨hc, hcap, hlen⟩ hcl hroom] at h
      injection h with h
      injection h with _ h
      subst h
      refine ⟨⟨hc, hcap, ?_⟩, hcl, rfl⟩
      simp only [List.length_append, List.length_singleton]
      omega
    · rw [MemoryQueue.Enqueue_open_full q job ⟨hc, hcap, hlen⟩ hcl (Nat.not_lt.mp hroom)] at h
      simp at h

theorem MemoryQueue.enqueueAll_ok (js : List EmailJob) :
    ∀ (q q1 : MemoryQueue), q.WF → q.enqueueAll js = some q1 →
      q1.WF ∧ q1.Jobs.buf = q.Jobs.buf ++ js := by
  induction js with
  | nil =>
    intro q q1 hwf h
    simp only [MemoryQueue.enqueueAll, Option.some.injEq] at h
    subst h
    simp [hwf]
  | cons j js ih =>
    intro q q1 hwf h
    unfold MemoryQueue.enqueueAll at h
    split at h
    · rename_i q2 heq
      obtain ⟨hwf2, -, hbuf2⟩ := MemoryQueue.Enqueue_ok q q2 j hwf heq
      obtain ⟨hwf1, hbuf1⟩ := ih q2 q1 hwf2 h
      exact ⟨hwf1, by rw [hbuf1, hbuf2, List.append_assoc, List.singleton_append]⟩
    · simp at h

/-- On a well-formed queue `Close` returns, keeps the buffer and closes the channel. -/
theorem MemoryQueue.Close_ok (q : MemoryQueue) (hwf : q.WF) :
    ∃ q1, q.Close = .ret q1 ∧ q1.WF ∧ q1.closed = true ∧ q1.Jobs.closed = true ∧
      q1.Jobs.buf = q.Jobs.buf := by
  obtain ⟨hc, hcap, hlen⟩ := hwf
  cases hcl : q.closed with
  | true =>
    exact ⟨q, by simp [MemoryQueue.Close, hcl], ⟨hc, hcap, hlen⟩, hcl, by rw [hc, hcl], rfl⟩
  | false =>
    refine ⟨{ q with Jobs := { q.Jobs with closed := true }, closed := true }, ?_, ?_, rfl, rfl, rfl⟩
    · simp [MemoryQueue.Close, Chan.close, hcl, hc]
    · exact ⟨rfl, hcap, hlen⟩

/-- The invariant holds for a queue built by `NewMemoryQueue` and is kept by every
method that returns. -/
theorem MemoryQueue.WF_kept :
    (∀ (capacity : Int) (q : MemoryQueue), NewMemoryQueue capacity = .ret q → q.WF) ∧
    (∀ (q q1 : MemoryQueue) (job : EmailJob) (e : GoError),
      q.WF → q.Enqueue job = .ret (e, q1) → q1.WF) ∧
    (∀ (q q1 : MemoryQueue) (r : EmailJob × Bool), q.WF → q.Dequeue = .ret (r, q1) → q1.WF) ∧
    (∀ (q q1 : MemoryQueue), q.WF → q.Close = .ret q1 → q1.WF) := by
  refine ⟨?_, ?_, ?_, ?_⟩
  · intro capacity q h
    by_cases hout : capacity < 0 ∨ (Chan.maxCap : Int) < capacity
    · simp [NewMemoryQueue, Chan.make, hout] at h
    · have hneg : ¬ capacity < 0 := fun hlt => hout (Or.inl hlt)
      simp only [NewMemoryQueue, Chan.make, hout, if_false, Go.ret.injEq] at h
      subst h
      exact ⟨rfl, (Int.toNat_of_nonneg (Int.not_lt.mp hneg)).symm, Nat.zero_le _⟩
  · intro q q1 job e hwf h
    cases e with
    | none => exact (MemoryQueue.Enqueue_ok q q1 job hwf h).1
    | some err =>
      cases hcl : q.closed with
      | true =>
        rw [MemoryQueue.Enqueue_closed q job hcl] at h
        injection h with h
        injection h with _ h
        exact h ▸ hwf
      | false =>
        by_cases hroom : q.Jobs.buf.length < q.Jobs.cap
        · rw [MemoryQueue.Enqueue_open_room q job hwf hcl hroom] at h
          simp at h
        · rw [MemoryQueue.Enqueue_open_full q job hwf hcl (Nat.not_lt.mp hroom)] at h
          injection h with h
          injection h with _ h
          exact h ▸ hwf
  · intro q q1 r hwf h
    obtain ⟨hc, hcap, hlen⟩ := hwf
    cases hb : q.Jobs.buf with
    | nil =>
      cases hch : q.Jobs.closed with
      | true =>
        simp [MemoryQueue.Dequeue, Chan.recv, hb, hch] at h
        obtain ⟨-, rfl⟩ := h
        exact ⟨hc, hcap, hlen⟩
      | false => simp [MemoryQueue.Dequeue, Chan.recv, hb, hch] at h
    | cons j rest =>
      simp [MemoryQueue.Dequeue, Chan.recv, hb] at h
      obtain ⟨-, rfl⟩ := h
      refine ⟨hc, hcap, ?_⟩
      rw [hb] at hlen
      simp only [List.length_cons] at hlen
      exact Nat.le_of_succ_le hlen
  · intro q q1 hwf h
    obtain ⟨q2, h2, hwf2, -⟩ := MemoryQueue.Close_ok q hwf
    rw [h2] at h
    injection h with h
    exact h ▸ hwf2

/-- Draining a queue whose channel is closed: the buffered jobs come out oldest
first, each with `true`, and every further `Dequeue` returns the zero job and `false`. -/
theorem MemoryQueue.dequeueN_closed (extra : Nat) (b : List EmailJob) :
    ∀ q : MemoryQueue, q.Jobs.closed = true → q.Jobs.buf = b →
      ∃ q1, q.dequeueN (b.length + extra) =
        .ret (b.map (fun j => (j, true)) ++ List.replicate extra (EmailJob.zero, false), q1) := by
  induction b with
  | nil =>
    intro q hc hb
    induction extra generalizing q with
    | zero => exact ⟨q, rfl⟩
    | succ n ih =>
      have hd : q.Dequeue = .ret ((EmailJob.zero, false), { q with Jobs := q.Jobs }) := by
        simp [MemoryQueue.Dequeue, Chan.recv, hb, hc]
      obtain ⟨q1, h1⟩ := ih { q with Jobs := q.Jobs } hc hb
      refine ⟨q1, ?_⟩
      simp only [List.length_nil, Nat.zero_add, List.map_nil, List.nil_append] at h1 ⊢
      simp only [MemoryQueue.dequeueN, hd, h1, List.replicate_succ]
  | cons j b ih =>
    intro q hc hb
    have hd : q.Dequeue = .ret ((j, true),
        { q with Jobs := { q.Jobs with buf := b }, queueLengthGauge := q.queueLengthGauge - 1 }) := by
      simp [MemoryQueue.Dequeue, Chan.recv, hb]
    obtain ⟨q1, h1⟩ := ih
      { q with Jobs := { q.Jobs with buf := b }, queueLengthGauge := q.queueLengthGauge - 1 } hc rfl
    refine ⟨q1, ?_⟩
    have hlen : (j :: b).length + extra = (b.length + extra) + 1 := by
      simp only [List.length_cons]; omega
    rw [hlen]
    simp only [MemoryQueue.dequeueN, hd, h1, List.map_cons, List.cons_append]

/-- **C1.** For every job `j` and every open in-memory queue holding fewer jobs than
its capacity, `Enqueue(j)` returns `nil` (and appends `j` to the buffer); if the queue
was empty before, the next `Dequeue` returns `(j, true)`, so a job whose `To`,
`Subject`, `Body` and `Retries` are those of `j`. -/
theorem C1_enqueue_then_dequeue (q : MemoryQueue) (j : EmailJob) (hwf : q.WF)
    (hopen : q.IsClosed = false) (hroom : (q.Jobs.buf.length : Int) < q.capacity) :
    ∃ q1, q.Enqueue j = .ret (none, q1) ∧ q1.Jobs.buf = q.Jobs.buf ++ [j] ∧
      (q.Jobs.buf = [] →
        ∃ job q2, q1.Dequeue = .ret ((job, true), q2) ∧ job = j ∧ job.To = j.To ∧
          job.Subject = j.Subject ∧ job.Body = j.Body ∧ job.Retries = j.Retries) := by
  have hroom1 : q.Jobs.buf.length < q.Jobs.cap := by
    have := hwf.2.1
    omega
  refine ⟨_, MemoryQueue.Enqueue_open_room q j hwf hopen hroom1, rfl, ?_⟩
  intro hempty
  exact ⟨j, ⟨⟨[], q.Jobs.cap, q.Jobs.closed⟩, q.capacity, q.closed, q.queueLengthGauge⟩,
    by simp [MemoryQueue.Dequeue, Chan.recv, hempty], rfl, rfl, rfl, rfl, rfl⟩

/-- Instance of C1: the empty sample queue of capacity 2 and the sample job. -/
theorem C1_enqueue_then_dequeue_witness :
    ∃ q1, (sampleQueue [] false).Enqueue sampleJob = .ret (none, q1) ∧
      q1.Jobs.buf = (sampleQueue [] false).Jobs.buf ++ [sampleJob] ∧
      ((sampleQueue [] false).Jobs.buf = [] →
        ∃ job q2, q1.Dequeue = .ret ((job, true), q2) ∧ job = sampleJob ∧
          job.To = sampleJob.To ∧ job.Subject = sampleJob.Subject ∧
          job.Body = sampleJob.Body ∧ job.Retries = sampleJob.Retries) :=
  C1_enqueue_then_dequeue (sampleQueue [] false) sampleJob (by decide) rfl (by decide)

/-- After `Close` returns, `IsClosed` reports `true` (both variants). -/
theorem Queue.Close_IsClosed (q q1 : Queue) (h : q.Close = .ret q1) : q1.IsClosed = true := by
  cases q with
  | memory m =>
    cases hcl : m.closed with
    | true =>
      simp [Queue.Close, MemoryQueue.Close, hcl] at h
      subst h
      simpa [Queue.IsClosed, MemoryQueue.IsClosed] using hcl
    | false =>
      cases hch : m.Jobs.closed with
      | true => simp [Queue.Close, MemoryQueue.Close, Chan.close, hcl, hch] at h
      | false =>
        simp [Queue.Close, MemoryQueue.Close, Chan.close, hcl, hch] at h
        subst h
        simp [Queue.IsClosed, MemoryQueue.IsClosed]
  | redis r =>
    simp only [Queue.Close, Go.ret.injEq] at h
    subst h
    cases hcl : r.closed <;> simp [Queue.IsClosed, RedisQueue.IsClosed, RedisQueue.Close, hcl]

/-- **C4.** For both queue variants and every job, `Enqueue` on a closed queue (one
whose `IsClosed` is `true`, as it is once `Close` has returned) returns the
queue-closed error and leaves the whole queue state as it was, in particular the
buffered jobs and the queue-depth gauge, whatever the number of buffered jobs. -/
theorem C4_enqueue_on_closed (q : Queue) (job : EmailJob) (hclosed : q.IsClosed = true) :
    ∃ q1, q.Enqueue job = .ret (some errQueueClosed, q1) ∧ q1 = q ∧
      q1.buffered = q.buffered ∧ q1.gauge = q.gauge := by
  refine ⟨q, ?_, rfl, rfl, rfl⟩
  cases q with
  | memory m =>
    have h : m.closed = true := hclosed
    simp [Queue.Enqueue, MemoryQueue.Enqueue, MemoryQueue.EnqueueParked, h]
  | redis r =>
    have h : r.closed = true := hclosed
    simp [Queue.Enqueue, RedisQueue.Enqueue, h]

/-- Instance of C4: the closed sample queue holding two jobs, its full capacity. -/
theorem C4_enqueue_on_closed_witness :
    ∃ q1, (Queue.memory (sampleQueue [sampleJob, sampleJob] true)).Enqueue sampleJob =
        .ret (some errQueueClosed, q1) ∧
      q1 = Queue.memory (sampleQueue [sampleJob, sampleJob] true) ∧
      q1.buffered = (Queue.memory (sampleQueue [sampleJob, sampleJob] true)).buffered ∧
      q1.gauge = (Queue.memory (sampleQueue [sampleJob, sampleJob] true)).gauge :=
  C4_enqueue_on_closed (Queue.memory (sampleQueue [sampleJob, sampleJob] true)) sampleJob rfl

/-- **C5, as stated, fails.** The queue `NewMemoryQueue 0` builds is open and holds
0 jobs, as many as its capacity; with one worker parked in `Dequeue`, `Enqueue`
returns `nil` (the job goes to that worker, the buffer stays empty), not the
queue-full error. -/
theorem C5_counterexample :
    ∃ q q1, NewMemoryQueue 0 = .ret q ∧ q.WF ∧ q.IsClosed = false ∧
      (q.Jobs.buf.length : Int) = q.capacity ∧
      q.EnqueueParked sampleJob 1 = .ret (none, q1) ∧ q1.Jobs.buf = q.Jobs.buf ∧
      q.EnqueueParked sampleJob 1 ≠ .ret (some errQueueFull, q) :=
  ⟨⟨⟨[], 0, false⟩, 0, false, 0⟩, ⟨⟨[], 0, false⟩, 0, false, 1⟩,
    by decide, by decide, rfl, rfl, by decide, rfl, by decide⟩

/-- **C5, amended.** For every well-formed open in-memory queue that holds as many
jobs as its capacity, whatever the number of goroutines parked in `Dequeue` (they
park only on an empty buffer): if the capacity is at least 1, or no goroutine is
parked, `Enqueue` of any job returns the queue-full error, which differs from the
queue-closed error, and leaves the queue (so the buffered jobs and their order)
unchanged. Whenever `Enqueue` returns the queue-full error the queue is open, holds
exactly `capacity` jobs, no goroutine is parked in `Dequeue`, and the queue is
unchanged. On an open queue with a goroutine parked in `Dequeue`, `Enqueue` returns
`nil` and leaves the buffer as it was. -/
theorem C5_queue_full_unless_consumer_parked (q : MemoryQueue) (job : EmailJob) (parked : Nat)
    (hwf : q.WF) (hpark : 0 < parked → q.Jobs.buf = []) :
    (q.IsClosed = false → (q.Jobs.buf.length : Int) = q.capacity →
      1 ≤ q.capacity ∨ parked = 0 →
      q.EnqueueParked job parked = .ret (some errQueueFull, q)) ∧
    errQueueFull ≠ errQueueClosed ∧
    (∀ q1, q.EnqueueParked job parked = .ret (some errQueueFull, q1) →
      q.IsClosed = false ∧ (q.Jobs.buf.length : Int) = q.capacity ∧ parked = 0 ∧ q1 = q) ∧
    (q.IsClosed = false → 0 < parked →
      q.EnqueueParked job parked =
        .ret (none, { q with queueLengthGauge := q.queueLengthGauge + 1 })) := by
  obtain ⟨hc, hcap, hlen⟩ := hwf
  refine ⟨?_, by decide, ?_, ?_⟩
  · intro hopen hfull hor
    have hopen1 : q.closed = false := hopen
    have hp0 : parked = 0 := by
      rcases hor with h1 | h0
      · by_contra hne
        have hb := hpark (Nat.pos_of_ne_zero hne)
        rw [hb] at hfull
        simp only [List.length_nil, Nat.cast_zero] at hfull
        omega
      · exact h0
    have hnroom : ¬ q.Jobs.buf.length < q.Jobs.cap := by omega
    simp [MemoryQueue.EnqueueParked, Chan.selectSend, hopen1, hc, hp0, hnroom]
  · intro q1 h
    cases hcl : q.closed with
    | true =>
      simp only [MemoryQueue.EnqueueParked, hcl, if_true, Go.ret.injEq, Prod.mk.injEq,
        Option.some.injEq] at h
      exact absurd h.1 (by decide)
    | false =>
      by_cases hp : 0 < parked
      · simp [MemoryQueue.EnqueueParked, Chan.selectSend, hcl, hc, hp] at h
      · have hp0 : parked = 0 := by omega
        by_cases hroom : q.Jobs.buf.length < q.Jobs.cap
        · simp [MemoryQueue.EnqueueParked, Chan.selectSend, hcl, hc, hp0, hroom] at h
        · simp only [MemoryQueue.EnqueueParked, Chan.selectSend, hcl, hc, hp0, hroom,
            Bool.false_eq_true, if_false, Nat.lt_irrefl, Go.ret.injEq, Prod.mk.injEq,
            true_and] at h
          exact ⟨hcl, by omega, hp0, h.symm⟩
  · intro hopen hp
    have hopen1 : q.closed = false := hopen
    simp [MemoryQueue.EnqueueParked, Chan.selectSend, hopen1, hc, hp]

/-- Instance of C5 as amended: the open sample queue holding two jobs, its full
capacity, with no goroutine parked in `Dequeue`. -/
theorem C5_queue_full_unless_consumer_parked_witness :
    ((sampleQueue [sampleJob, sampleJob] false).IsClosed = false →
      (((sampleQueue [sampleJob, sampleJob] false).Jobs.buf.length : Nat) : Int) =
        (sampleQueue [sampleJob, sampleJob] false).capacity →
      1 ≤ (sampleQueue [sampleJob, sampleJob] false).capacity ∨ 0 = 0 →
      (sampleQueue [sampleJob, sampleJob] false).EnqueueParked sampleJob 0 =
        .ret (some errQueueFull, sampleQueue [sampleJob, sampleJob] false)) ∧
    errQueueFull ≠ errQueueClosed ∧
    (∀ q1, (sampleQueue [sampleJob, sampleJob] false).EnqueueParked sampleJob 0 =
        .ret (some errQueueFull, q1) →
      (sampleQueue [sampleJob, sampleJob] false).IsClosed = false ∧
      (((sampleQueue [sampleJob, sampleJob] false).Jobs.buf.length : Nat) : Int) =
        (sampleQueue [sampleJob, sampleJob] false).capacity ∧
      0 = 0 ∧ q1 = sampleQueue [sampleJob, sampleJob] false) ∧
    ((sampleQueue [sampleJob, sampleJob] false).IsClosed = false → 0 < 0 →
      (sampleQueue [sampleJob, sampleJob] false).EnqueueParked sampleJob 0 =
        .ret (none, { sampleQueue [sampleJob, sampleJob] false with
          queueLengthGauge := (sampleQueue [sampleJob, sampleJob] false).queueLengthGauge + 1 })) :=
  C5_queue_full_unless_consumer_parked (sampleQueue [sampleJob, sampleJob] false) sampleJob 0
    (by decide) (fun h => absurd h (by decide))

/-- **C6.** On a well-formed in-memory queue, if `Enqueue(j1)`, ..., `Enqueue(jk)`
succeed in that order and `Close` is then called, `Close` returns and the next
`Dequeue` calls return, each with `true` and oldest first, the jobs buffered before
followed by `j1`, ..., `jk` (on a queue that was empty: exactly `j1`, ..., `jk`, in
`k` calls); every later `Dequeue` returns the zero job and `false`. -/
theorem C6_close_then_drain (q q1 : MemoryQueue) (js : List EmailJob) (hwf : q.WF)
    (henq : q.enqueueAll js = some q1) :
    ∃ q2, q1.Close = .ret q2 ∧
      ∀ extra : Nat, ∃ q3,
        q2.dequeueN (q.Jobs.buf.length + js.length + extra) =
          .ret ((q.Jobs.buf ++ js).map (fun j => (j, true)) ++
            List.replicate extra (EmailJob.zero, false), q3) := by
  obtain ⟨hwf1, hbuf1⟩ := MemoryQueue.enqueueAll_ok js q q1 hwf henq
  obtain ⟨q2, hclose, -, -, hch, hbuf2⟩ := MemoryQueue.Close_ok q1 hwf1
  refine ⟨q2, hclose, fun extra => ?_⟩
  have h := MemoryQueue.dequeueN_closed extra (q.Jobs.buf ++ js) q2 hch (by rw [hbuf2, hbuf1])
  rwa [List.length_append] at h

/-- Instance of C6: two jobs enqueued on the empty sample queue, then `Close`. -/
theorem C6_close_then_drain_witness :
    ∃ q2, (sampleQueue [sampleJob, ⟨"x@y.z", "s", "b", 1⟩] false).Close = .ret q2 ∧
      ∀ extra : Nat, ∃ q3,
        q2.dequeueN ((sampleQueue [] false).Jobs.buf.length +
            [sampleJob, (⟨"x@y.z", "s", "b", 1⟩ : EmailJob)].length + extra) =
          .ret (((sampleQueue [] false).Jobs.buf ++
              [sampleJob, (⟨"x@y.z", "s", "b", 1⟩ : EmailJob)]).map (fun j => (j, true)) ++
            List.replicate extra (EmailJob.zero, false), q3) :=
  C6_close_then_drain (sampleQueue [] false) (sampleQueue [sampleJob, ⟨"x@y.z", "s", "b", 1⟩] false)
    [sampleJob, ⟨"x@y.z", "s", "b", 1⟩] (by decide) (by decide)

/-! ## The worker loop -/

/-- A worker of a pool that has not been stopped drains a closed in-memory queue:
it hands the buffered jobs to the processor, oldest first, and returns when `Dequeue`
reports the closed empty queue. -/
theorem WorkerPool.worker_running_drains (n : Int)
    (processor : EmailJob → emailService → emailService)
    (hframe : ∀ job st, (processor job st).queue = st.queue) (js : List EmailJob) :
    ∀ (fuel : Nat) (s : emailService) (m : MemoryQueue), s.queue = .memory m →
      m.Jobs.closed = true → m.Jobs.buf = js → js.length < fuel →
      ((WorkerPool.mk n false).worker processor fuel s).status = .exited ∧
      ((WorkerPool.mk n false).worker processor fuel s).handled = js ∧
      ((WorkerPool.mk n false).worker processor fuel s).dequeues = js.length + 1 := by
  induction js with
  | nil =>
    intro fuel s m hq hc hb hf
    obtain ⟨fuel, rfl⟩ : ∃ k, fuel = k + 1 := ⟨fuel - 1, by simp at hf; omega⟩
    simp [WorkerPool.worker, hq, Queue.Dequeue, MemoryQueue.Dequeue, Chan.recv, hb, hc]
  | cons j js ih =>
    intro fuel s m hq hc hb hf
    obtain ⟨fuel, rfl⟩ : ∃ k, fuel = k + 1 := ⟨fuel - 1, by simp at hf; omega⟩
    have hf1 : js.length < fuel := by simp at hf; omega
    obtain ⟨m1, hm1, hc1, hb1⟩ : ∃ m1 : MemoryQueue,
        m.Dequeue = .ret ((j, true), m1) ∧ m1.Jobs.closed = true ∧ m1.Jobs.buf = js :=
      ⟨⟨⟨js, m.Jobs.cap, m.Jobs.closed⟩, m.capacity, m.closed, m.queueLengthGauge - 1⟩,
        by simp [MemoryQueue.Dequeue, Chan.recv, hb], hc, rfl⟩
    have hd : s.queue.Dequeue = .ret ((j, true), .memory m1) := by
      simp [hq, Queue.Dequeue, hm1]
    obtain ⟨h1, h2, h3⟩ := ih fuel (processor j { s with queue := .memory m1 }) m1
      (by rw [hframe]) hc1 hb1 hf1
    simp only [WorkerPool.worker, hd, Bool.false_eq_true, if_false, Bool.not_true]
    exact ⟨h1, by rw [h2], by rw [h3]; simp⟩

/-- **C3.** What `WorkerPool.worker` does once the stop signal is raised: for every
processor, every state (so every queue, closed or not, with any number of buffered
jobs) and every number of loop iterations, the worker has made no `Dequeue` call, has
passed no job to the processor, has not returned, and has left the state as it was.
The claim that it drains the queue and exits fails. -/
theorem C3_stopped_worker_never_dequeues (n : Int)
    (processor : EmailJob → emailService → emailService) (fuel : Nat) (s : emailService) :
    (WorkerPool.mk n true).worker processor fuel s = ⟨.looping, [], 0, s⟩ := by
  induction fuel with
  | zero => rfl
  | succ k ih => simpa [WorkerPool.worker] using ih

/-! ## The HTTP handler -/

/-- **C7, as stated, fails.** On an open Redis queue whose client is closed, a valid
POST request gets `EnqueueEmail` an error that is not the queue-full error, and the
handler answers 503 Service Unavailable, not 500. -/
theorem C7_counterexample :
    (∃ s1, redisFaultService.EnqueueEmail sampleJob =
        .ret (some (wrapEnqueueError (wrapRedisError errRedisClientClosed)), s1) ∧
      SendEmail acceptAll redisFaultService ⟨"POST", some sampleJob⟩ =
        .ret (StatusServiceUnavailable, s1)) ∧
    wrapEnqueueError (wrapRedisError errRedisClientClosed) ≠ wrapEnqueueError errQueueFull ∧
    StatusServiceUnavailable ≠ StatusInternalServerError ∧
    sampleJob.Validate acceptAll = none := by
  refine ⟨⟨_, rfl, ?_⟩, by decide, by decide, by decide⟩
  decide

/-- **C7, amended.** For every valid POST request (method POST, a body that decodes
to a job, a job that passes `Validate`), the status follows from the outcome of
`EnqueueEmail` on the job with `Retries` reset to 0: success gives 202; the queue-full
error gives 503; the Redis client-closed error gives 503; every other error gives 500,
the queue-closed error among them. -/
theorem C7_status_of_enqueue_outcome (parseAddress : String → GoError) (s : emailService)
    (r : Request) (job : EmailJob) (hmethod : r.Method = "POST") (hbody : r.Body = some job)
    (hvalid : job.Validate parseAddress = none) :
    (∀ s1, s.EnqueueEmail { job with Retries := 0 } = .ret (none, s1) →
      SendEmail parseAddress s r = .ret (StatusAccepted, s1)) ∧
    (∀ msg s1, s.EnqueueEmail { job with Retries := 0 } = .ret (some msg, s1) →
      SendEmail parseAddress s r =
        .ret ((if msg = wrapEnqueueError errQueueFull ∨
                  msg = wrapEnqueueError (wrapRedisError errRedisClientClosed)
               then StatusServiceUnavailable else StatusInternalServerError), s1)) ∧
    (∀ s1, s.EnqueueEmail { job with Retries := 0 } =
        .ret (some (wrapEnqueueError errQueueClosed), s1) →
      SendEmail parseAddress s r = .ret (StatusInternalServerError, s1)) := by
  have hfull : wrapEnqueueError errQueueFull =
      "failed to enqueue email: queue is full, cannot enqueue job" := by decide
  have hredis : wrapEnqueueError (wrapRedisError errRedisClientClosed) =
      "failed to enqueue email: failed to enqueue job to Redis: redis: client is closed" := by
    decide
  have hmain : ∀ msg s1, s.EnqueueEmail { job with Retries := 0 } = .ret (some msg, s1) →
      SendEmail parseAddress s r =
        .ret ((if msg = wrapEnqueueError errQueueFull ∨
                  msg = wrapEnqueueError (wrapRedisError errRedisClientClosed)
               then StatusServiceUnavailable else StatusInternalServerError), s1) := by
    intro msg s1 h
    simp only [SendEmail, hmethod, hbody, hvalid, h, enqueueErrorStatus, hfull, hredis]
    by_cases h1 : msg = "failed to enqueue email: queue is full, cannot enqueue job"
    · simp [h1]
    · by_cases h2 : msg =
          "failed to enqueue email: failed to enqueue job to Redis: redis: client is closed"
      · simp [h2]
      · simp [h1, h2]
  refine ⟨?_, hmain, ?_⟩
  · intro s1 h
    simp [SendEmail, hmethod, hbody, hvalid, h]
  · intro s1 h
    rw [hmain _ s1 h]
    have hne1 : wrapEnqueueError errQueueClosed ≠ wrapEnqueueError errQueueFull := by decide
    have hne2 : wrapEnqueueError errQueueClosed ≠
        wrapEnqueueError (wrapRedisError errRedisClientClosed) := by decide
    simp [hne1, hne2]

/-- Instance of C7 as amended: a valid POST request to the service whose Redis client is closed. -/
theorem C7_status_of_enqueue_outcome_witness :
    (∀ s1, redisFaultService.EnqueueEmail { sampleJob with Retries := 0 } = .ret (none, s1) →
      SendEmail acceptAll redisFaultService ⟨"POST", some sampleJob⟩ = .ret (StatusAccepted, s1)) ∧
    (∀ msg s1, redisFaultService.EnqueueEmail { sampleJob with Retries := 0 } =
        .ret (some msg, s1) →
      SendEmail acceptAll redisFaultService ⟨"POST", some sampleJob⟩ =
        .ret ((if msg = wrapEnqueueError errQueueFull ∨
                  msg = wrapEnqueueError (wrapRedisError errRedisClientClosed)
               then StatusServiceUnavailable else StatusInternalServerError), s1)) ∧
    (∀ s1, redisFaultService.EnqueueEmail { sampleJob with Retries := 0 } =
        .ret (some (wrapEnqueueError errQueueClosed), s1) →
      SendEmail acceptAll redisFaultService ⟨"POST", some sampleJob⟩ =
        .ret (StatusInternalServerError, s1)) :=
  C7_status_of_enqueue_outcome acceptAll redisFaultService ⟨"POST", some sampleJob⟩ sampleJob
    rfl rfl (by decide)

/-! ## The retry and dead-letter engine -/

theorem Queue.Ready.dequeue_one (q : Queue) (j : EmailJob) (h : q.Ready [j]) :
    ∃ q1, q.Dequeue = .ret ((j, true), q1) ∧ q1.Ready [] := by
  cases q with
  | memory m =>
    obtain ⟨⟨hc, hcap, -⟩, hopen, hbuf, hpos⟩ := h
    refine ⟨.memory ⟨⟨[], m.Jobs.cap, m.Jobs.closed⟩, m.capacity, m.closed, m.queueLengthGauge - 1⟩,
      by simp [Queue.Dequeue, MemoryQueue.Dequeue, Chan.recv, hbuf], ?_⟩
    exact ⟨⟨hc, hcap, Nat.zero_le _⟩, hopen, rfl, hpos⟩
  | redis r =>
    obtain ⟨hopen, hfault, hlist⟩ := h
    refine ⟨.redis ⟨⟨[], r.client.fault⟩, r.queueLengthGauge - 1, r.closed⟩, ?_, ?_⟩
    · simp [Queue.Dequeue, RedisQueue.Dequeue, RedisClient.BLPop, hfault, hlist]
    · exact ⟨hopen, hfault, rfl⟩

theorem Queue.Ready.dequeue_empty (q : Queue) (h : q.Ready []) : q.Dequeue = .blocks := by
  cases q with
  | memory m =>
    obtain ⟨⟨hc, -, -⟩, hopen, hbuf, -⟩ := h
    simp [Queue.Dequeue, MemoryQueue.Dequeue, Chan.recv, hbuf, hc, hopen]
  | redis r =>
    obtain ⟨-, hfault, hlist⟩ := h
    have hl : r.client.list = [] := by simpa using hlist
    simp [Queue.Dequeue, RedisQueue.Dequeue, RedisClient.BLPop, hfault, hl]

theorem Queue.Ready.enqueue_empty (q : Queue) (j : EmailJob) (h : q.Ready []) :
    ∃ q1, q.Enqueue j = .ret (none, q1) ∧ q1.Ready [j] := by
  cases q with
  | memory m =>
    obtain ⟨hwf, hopen, hbuf, hpos⟩ := h
    have hroom : m.Jobs.buf.length < m.Jobs.cap := by rw [hbuf]; exact hpos
    refine ⟨.memory ⟨⟨m.Jobs.buf ++ [j], m.Jobs.cap, m.Jobs.closed⟩, m.capacity, m.closed,
      m.queueLengthGauge + 1⟩, ?_, ?_⟩
    · simp only [Queue.Enqueue, MemoryQueue.Enqueue_open_room m j hwf hopen hroom]
    · refine ⟨⟨hwf.1, hwf.2.1, ?_⟩, hopen, by simp [hbuf], hpos⟩
      simp only [hbuf, List.nil_append, List.length_singleton]
      omega
  | redis r =>
    obtain ⟨hopen, hfault, hlist⟩ := h
    have hl : r.client.list = [] := by simpa using hlist
    refine ⟨.redis ⟨⟨[.json j], r.client.fault⟩, r.queueLengthGauge + 1, r.closed⟩, ?_, ?_⟩
    · simp [Queue.Enqueue, RedisQueue.Enqueue, RedisClient.RPush, hopen, hfault, hl]
    · exact ⟨hopen, hfault, rfl⟩

/-- A worker iteration on a queue whose `Dequeue` delivers `j` runs
`ProcessEmailJob` on `j`. -/
theorem System.workerStep_of_dequeue (env : Env) (n : Nat) (s : emailService) (j : EmailJob)
    (q1 : Queue) (h : s.queue.Dequeue = .ret ((j, true), q1)) :
    System.workerStep env n s = some (.processed j,
      emailService.ProcessEmailJob { s with queue := q1 } j (env.draw n) (env.elapsed n)
        (env.now n)) := by
  simp [System.workerStep, NewWorkerPool, WorkerPool.worker, h]

theorem System.workerStep_of_blocks (env : Env) (n : Nat) (s : emailService)
    (h : s.queue.Dequeue = .blocks) : System.workerStep env n s = none := by
  simp [System.workerStep, NewWorkerPool, WorkerPool.worker, h]

theorem System.step_of_worker (env : Env) (n : Nat) (s : emailService) (r : Action × emailService)
    (ht : s.timers = []) (hw : System.workerStep env n s = some r) :
    System.step env n s = some r := by
  cases hf : env.timerFirst n <;> simp [System.step, System.timerStep, ht, hw, hf]

/-- A failed attempt below the retry limit: the worker takes the job, the timer for
the job with one more retry is armed, the dead-letter queue is not touched. -/
theorem System.step_retry (env : Env) (n : Nat) (s : emailService) (j : EmailJob)
    (hq : s.queue.Ready [j]) (ht : s.timers = []) (hfail : 80 ≤ env.draw n)
    (hlt : j.Retries < s.maxRetries) :
    ∃ s1, System.step env n s = some (.processed j, s1) ∧ s1.queue.Ready [] ∧
      s1.timers = [⟨s.retryDelaySeconds, { j with Retries := j.Retries + 1 }⟩] ∧
      s1.dlq = s.dlq ∧ s1.maxRetries = s.maxRetries := by
  obtain ⟨q1, hd, hq1⟩ := Queue.Ready.dequeue_one s.queue j hq
  refine ⟨_, System.step_of_worker env n s _ ht (System.workerStep_of_dequeue env n s j q1 hd), ?_⟩
  have hnot : ¬ env.draw n < 80 := Nat.not_lt.mpr hfail
  simp [emailService.ProcessEmailJob, hnot, hlt, ht, hq1]

/-- A failed attempt at the retry limit: the worker takes the job and writes it to
the dead-letter queue; nothing is armed. -/
theorem System.step_dead_letter (env : Env) (n : Nat) (s : emailService) (j : EmailJob)
    (hq : s.queue.Ready [j]) (ht : s.timers = []) (hfail : 80 ≤ env.draw n)
    (hge : ¬ j.Retries < s.maxRetries) :
    ∃ s1, System.step env n s = some (.processed j, s1) ∧ s1.queue.Ready [] ∧
      s1.timers = [] ∧
      s1.dlq.failedJobs = s.dlq.failedJobs ++ [⟨j, reasonPermanent j.Retries, env.now n⟩] := by
  obtain ⟨q1, hd, hq1⟩ := Queue.Ready.dequeue_one s.queue j hq
  refine ⟨_, System.step_of_worker env n s _ ht (System.workerStep_of_dequeue env n s j q1 hd), ?_⟩
  have hnot : ¬ env.draw n < 80 := Nat.not_lt.mpr hfail
  simp [emailService.ProcessEmailJob, hnot, hge, ht, hq1, InMemoryDLQ.Store]

/-- The armed timer fires on an empty working queue: the job is back in the queue. -/
theorem System.step_fire (env : Env) (n : Nat) (s : emailService) (t : Timer)
    (hq : s.queue.Ready []) (ht : s.timers = [t]) :
    ∃ s1, System.step env n s = some (.fired t.job, s1) ∧ s1.queue.Ready [t.job] ∧
      s1.timers = [] ∧ s1.dlq = s.dlq ∧ s1.maxRetries = s.maxRetries := by
  obtain ⟨q1, he, hq1⟩ := Queue.Ready.enqueue_empty s.queue t.job hq
  have hw : System.workerStep env n s = none :=
    System.workerStep_of_blocks env n s (Queue.Ready.dequeue_empty s.queue hq)
  refine ⟨{ s with timers := [], queue := q1 }, ?_, hq1, rfl, rfl, rfl⟩
  cases hf : env.timerFirst n <;>
    simp [System.step, System.timerStep, emailService.fireTimer, emailService.retryClosure,
      ht, hw, hf, he]

/-- Nothing armed and an empty open queue: the worker waits in `Dequeue`. -/
theorem System.step_quiescent (env : Env) (n : Nat) (s : emailService)
    (hq : s.queue.Ready []) (ht : s.timers = []) : System.step env n s = none := by
  have hw : System.workerStep env n s = none :=
    System.workerStep_of_blocks env n s (Queue.Ready.dequeue_empty s.queue hq)
  cases hf : env.timerFirst n <;> simp [System.step, System.timerStep, ht, hw, hf]

theorem retryAttempts_length (d : Nat) : ∀ job : EmailJob, (retryAttempts job d).length = d + 1 := by
  induction d with
  | zero => intro job; rfl
  | succ d ih => intro job; simp [retryAttempts, ih]

theorem System.run_quiescent (env : Env) (fuel n : Nat) (s : emailService)
    (hq : s.queue.Ready []) (ht : s.timers = []) : System.run env fuel n s = ([], s) := by
  cases fuel with
  | zero => rfl
  | succ f => simp [System.run, System.step_quiescent env n s hq ht]

/-- A job whose delivery always fails, `d` retries short of the limit, alone in a
working queue: the execution makes `d + 1` attempts and `d` timer firings, then
stops, with one new dead-letter entry written by the last attempt. -/
theorem System.run_failing_complete (env : Env) (hfail : ∀ k, 80 ≤ env.draw k) (d : Nat) :
    ∀ (n fuel : Nat) (s : emailService) (j : EmailJob), s.queue.Ready [j] → s.timers = [] →
      j.Retries + (d : Int) = s.maxRetries → 2 * d + 1 ≤ fuel →
      attempts (System.run env fuel n s).1 = retryAttempts j d ∧
      (System.run env fuel n s).1.length = 2 * d + 1 ∧
      (System.run env fuel n s).2.dlq.failedJobs = s.dlq.failedJobs ++
        [⟨{ j with Retries := s.maxRetries }, reasonPermanent s.maxRetries, env.now (n + 2 * d)⟩] := by
  induction d with
  | zero =>
    intro n fuel s j hq ht hmax hfuel
    obtain ⟨f, rfl⟩ : ∃ f, fuel = f + 1 := ⟨fuel - 1, by omega⟩
    have hret : j.Retries = s.maxRetries := by simpa using hmax
    obtain ⟨s1, hstep, hq1, ht1, hdlq⟩ :=
      System.step_dead_letter env n s j hq ht (hfail n) (by omega)
    have hrest := System.run_quiescent env f (n + 1) s1 hq1 ht1
    simp only [System.run, hstep, hrest, attempts, retryAttempts, List.length_singleton, hdlq]
    refine ⟨trivial, trivial, ?_⟩
    rw [← hret]
    rfl
  | succ d ih =>
    intro n fuel s j hq ht hmax hfuel
    obtain ⟨f, rfl⟩ : ∃ f, fuel = f + 2 := ⟨fuel - 2, by omega⟩
    have hlt : j.Retries < s.maxRetries := by push_cast at hmax; omega
    obtain ⟨s1, hstep1, hq1, ht1, hdlq1, hmax1⟩ := System.step_retry env n s j hq ht (hfail n) hlt
    obtain ⟨s2, hstep2, hq2, ht2, hdlq2, hmax2⟩ := System.step_fire env (n + 1) s1 _ hq1 ht1
    have hmaxj : ({ j with Retries := j.Retries + 1 } : EmailJob).Retries + (d : Int) =
        s2.maxRetries := by
      rw [hmax2, hmax1]; push_cast at hmax; simp only; omega
    obtain ⟨h1, h2, h3⟩ := ih (n + 1 + 1) f s2 _ hq2 ht2 hmaxj (by omega)
    simp only [System.run, hstep1, hstep2, attempts, retryAttempts, List.length_cons]
    refine ⟨by rw [h1], by rw [h2]; omega, ?_⟩
    rw [h3, hdlq2, hdlq1, hmax2, hmax1]
    have hn : n + 1 + 1 + 2 * d = n + 2 * (d + 1) := by omega
    rw [hn]

/-- Before the last attempt nothing reaches the dead-letter queue: within the first
`2 * d` steps at most `d` attempts have been made and the dead-letter queue is as it
was. -/
theorem System.run_failing_before (env : Env) (hfail : ∀ k, 80 ≤ env.draw k) (d : Nat) :
    ∀ (n fuel : Nat) (s : emailService) (j : EmailJob), s.queue.Ready [j] → s.timers = [] →
      j.Retries + (d : Int) = s.maxRetries → fuel ≤ 2 * d →
      (attempts (System.run env fuel n s).1).length ≤ d ∧
      (System.run env fuel n s).2.dlq = s.dlq := by
  induction d with
  | zero =>
    intro n fuel s j _ _ _ hfuel
    obtain rfl : fuel = 0 := by omega
    exact ⟨Nat.le_refl _, rfl⟩
  | succ d ih =>
    intro n fuel s j hq ht hmax hfuel
    have hlt : j.Retries < s.maxRetries := by push_cast at hmax; omega
    obtain ⟨s1, hstep1, hq1, ht1, hdlq1, hmax1⟩ := System.step_retry env n s j hq ht (hfail n) hlt
    obtain ⟨s2, hstep2, hq2, ht2, hdlq2, hmax2⟩ := System.step_fire env (n + 1) s1 _ hq1 ht1
    match fuel, hfuel with
    | 0, _ => exact ⟨Nat.zero_le _, rfl⟩
    | 1, _ =>
      simp only [System.run, hstep1, attempts, List.length_singleton]
      exact ⟨by omega, hdlq1⟩
    | f + 2, hfuel =>
      have hmaxj : ({ j with Retries := j.Retries + 1 } : EmailJob).Retries + (d : Int) =
          s2.maxRetries := by
        rw [hmax2, hmax1]; push_cast at hmax; simp only; omega
      obtain ⟨h1, h2⟩ := ih (n + 1 + 1) f s2 _ hq2 ht2 hmaxj (by omega)
      simp only [System.run, hstep1, hstep2, attempts, List.length_cons]
      exact ⟨by omega, by rw [h2, hdlq2, hdlq1]⟩

/-- **C2, as stated, fails.** With `max_retries = 2` and delivery always failing, the
job is dead-lettered once, by the third attempt, and the stored reason is
"Permanently failed after 2 retries", which is not the text of the claim. -/
theorem C2_counterexample :
    (attempts (System.run failingEnv 5 0 (sampleService [sampleJob] 2)).1).length = 3 ∧
    (System.run failingEnv 5 0 (sampleService [sampleJob] 2)).2.dlq.failedJobs =
      [⟨{ sampleJob with Retries := 2 }, "Permanently failed after 2 retries", 4⟩] ∧
    "Permanently failed after 2 retries" ≠ "permanently failed after 2 retries" := by
  decide

/-- **C2, amended.** For every limit `m >= 0` and every job with `Retries = 0`, alone
in a working open queue, whose delivery fails on every attempt: in every execution
`ProcessEmailJob` runs on the job `m + 1` times, with `Retries` 0 to `m`, and then
the execution stops; the dead-letter queue is untouched during the first `2 * m`
steps (at most `m` attempts) and gains exactly one entry with the last attempt,
holding the job with `Retries = m` and the reason "Permanently failed after m
retries". -/
theorem C2_dead_letter_after_max_retries (env : Env) (m : Nat) (s : emailService)
    (job : EmailJob) (hfail : ∀ k, 80 ≤ env.draw k) (hmax : s.maxRetries = (m : Int))
    (hzero : job.Retries = 0) (hq : s.queue.Ready [job]) (ht : s.timers = []) :
    (∀ fuel, 2 * m + 1 ≤ fuel →
      attempts (System.run env fuel 0 s).1 = retryAttempts job m ∧
      (attempts (System.run env fuel 0 s).1).length = m + 1 ∧
      (System.run env fuel 0 s).1.length = 2 * m + 1 ∧
      (System.run env fuel 0 s).2.dlq.failedJobs = s.dlq.failedJobs ++
        [⟨{ job with Retries := (m : Int) },
          "Permanently failed after " ++ toString m ++ " retries", env.now (2 * m)⟩]) ∧
    (∀ fuel, fuel ≤ 2 * m →
      (attempts (System.run env fuel 0 s).1).length ≤ m ∧
      (System.run env fuel 0 s).2.dlq = s.dlq) ∧
    (∀ (st : emailService) (k draw elapsed now : Nat), st.maxRetries = (m : Int) → 80 ≤ draw →
      k ≤ m →
      (st.ProcessEmailJob { job with Retries := (k : Int) } draw elapsed now).dlq.failedJobs =
        st.dlq.failedJobs ++
          (if k = m then [⟨{ job with Retries := (m : Int) },
            "Permanently failed after " ++ toString m ++ " retries", now⟩] else []) ∧
      (st.ProcessEmailJob { job with Retries := (k : Int) } draw elapsed now).timers =
        st.timers ++
          (if k = m then [] else [⟨st.retryDelaySeconds, { job with Retries := (k : Int) + 1 }⟩])) := by
  have hd : job.Retries + (m : Int) = s.maxRetries := by rw [hzero, hmax]; simp
  refine ⟨fun fuel hfuel => ?_, fun fuel hfuel =>
    System.run_failing_before env hfail m 0 fuel s job hq ht hd hfuel, ?_⟩
  · obtain ⟨h1, h2, h3⟩ := System.run_failing_complete env hfail m 0 fuel s job hq ht hd hfuel
    refine ⟨h1, by rw [h1, retryAttempts_length], h2, ?_⟩
    rw [h3, hmax, Nat.zero_add]
    rfl
  · intro st k draw elapsed now hst hdraw hk
    have hnot : ¬ draw < 80 := Nat.not_lt.mpr hdraw
    by_cases hkm : k = m
    · subst hkm
      have hge : ¬ ((k : Int) < st.maxRetries) := by rw [hst]; omega
      simp only [emailService.ProcessEmailJob, hnot, decide_False, Bool.false_eq_true, if_false,
        hge, InMemoryDLQ.Store, if_true, List.append_nil]
      exact ⟨rfl, trivial⟩
    · have hlt : (k : Int) < st.maxRetries := by rw [hst]; omega
      simp [emailService.ProcessEmailJob, hnot, hlt, hkm]

/-- Instance of C2 as amended: the sample job alone in the sample queue, `maxRetries = 2`. -/
theorem C2_dead_letter_after_max_retries_witness :
    (∀ fuel, 2 * 2 + 1 ≤ fuel →
      attempts (System.run failingEnv fuel 0 (sampleService [sampleJob] 2)).1 =
        retryAttempts sampleJob 2 ∧
      (attempts (System.run failingEnv fuel 0 (sampleService [sampleJob] 2)).1).length = 2 + 1 ∧
      (System.run failingEnv fuel 0 (sampleService [sampleJob] 2)).1.length = 2 * 2 + 1 ∧
      (System.run failingEnv fuel 0 (sampleService [sampleJob] 2)).2.dlq.failedJobs =
        (sampleService [sampleJob] 2).dlq.failedJobs ++
        [⟨{ sampleJob with Retries := ((2 : Nat) : Int) },
          "Permanently failed after " ++ toString 2 ++ " retries", failingEnv.now (2 * 2)⟩]) ∧
    (∀ fuel, fuel ≤ 2 * 2 →
      (attempts (System.run failingEnv fuel 0 (sampleService [sampleJob] 2)).1).length ≤ 2 ∧
      (System.run failingEnv fuel 0 (sampleService [sampleJob] 2)).2.dlq =
        (sampleService [sampleJob] 2).dlq) ∧
    (∀ (st : emailService) (k draw elapsed now : Nat), st.maxRetries = ((2 : Nat) : Int) →
      80 ≤ draw → k ≤ 2 →
      (st.ProcessEmailJob { sampleJob with Retries := (k : Int) } draw elapsed now).dlq.failedJobs =
        st.dlq.failedJobs ++
          (if k = 2 then [⟨{ sampleJob with Retries := ((2 : Nat) : Int) },
            "Permanently failed after " ++ toString 2 ++ " retries", now⟩] else []) ∧
      (st.ProcessEmailJob { sampleJob with Retries := (k : Int) } draw elapsed now).timers =
        st.timers ++
          (if k = 2 then []
           else [⟨st.retryDelaySeconds, { sampleJob with Retries := (k : Int) + 1 }⟩])) :=
  C2_dead_letter_after_max_retries failingEnv 2 (sampleService [sampleJob] 2) sampleJob
    (fun _ => (by decide : 80 ≤ 99)) rfl rfl ⟨by decide, rfl, rfl, by decide⟩ rfl

/-- What `Enqueue` does to the buffered jobs, for both variants: success appends the
job at the tail, an error leaves them as they were. -/
theorem Queue.Enqueue_buffered (q q1 : Queue) (job : EmailJob) (e : GoError)
    (h : q.Enqueue job = .ret (e, q1)) :
    (e = none → q1.buffered = q.buffered ++ [job]) ∧ (e ≠ none → q1.buffered = q.buffered) := by
  cases q with
  | memory m =>
    cases hcl : m.closed with
    | true =>
      simp [Queue.Enqueue, MemoryQueue.Enqueue, MemoryQueue.EnqueueParked, hcl] at h
      obtain ⟨rfl, rfl⟩ := h
      simp
    | false =>
      cases hch : m.Jobs.closed with
      | true => simp [Queue.Enqueue, MemoryQueue.Enqueue, MemoryQueue.EnqueueParked, Chan.selectSend, hcl, hch] at h
      | false =>
        by_cases hroom : m.Jobs.buf.length < m.Jobs.cap
        · simp [Queue.Enqueue, MemoryQueue.Enqueue, MemoryQueue.EnqueueParked, Chan.selectSend, hcl, hch, hroom] at h
          obtain ⟨rfl, rfl⟩ := h
          simp [Queue.buffered]
        · simp [Queue.Enqueue, MemoryQueue.Enqueue, MemoryQueue.EnqueueParked, Chan.selectSend, hcl, hch, hroom] at h
          obtain ⟨rfl, rfl⟩ := h
          simp
  | redis r =>
    cases hcl : r.closed with
    | true =>
      simp [Queue.Enqueue, RedisQueue.Enqueue, hcl] at h
      obtain ⟨rfl, rfl⟩ := h
      simp
    | false =>
      cases hf : r.client.fault with
      | some err =>
        simp [Queue.Enqueue, RedisQueue.Enqueue, RedisClient.RPush, hcl, hf] at h
        obtain ⟨rfl, rfl⟩ := h
        simp [Queue.buffered]
      | none =>
        simp [Queue.Enqueue, RedisQueue.Enqueue, RedisClient.RPush, hcl, hf] at h
        obtain ⟨rfl, rfl⟩ := h
        simp [Queue.buffered, List.filterMap_append]

/-- **C8, as stated, fails.** A job with `Retries = 0` fails below the limit on a
closed queue; when its timer fires the re-enqueue fails and the job is dead-lettered
once, with the reason "Failed to re-enqueue after 1 retries: queue is closed, cannot
enqueue new jobs": the text of the enqueue error is part of the reason, which is not
the text of the claim. -/
theorem C8_counterexample :
    ∃ s2, (closedService.ProcessEmailJob sampleJob 99 1 0).fireTimer 7 = .ret s2 ∧
      s2.dlq.failedJobs = [⟨{ sampleJob with Retries := 1 },
        "Failed to re-enqueue after 1 retries: queue is closed, cannot enqueue new jobs", 7⟩] ∧
      "Failed to re-enqueue after 1 retries: queue is closed, cannot enqueue new jobs" ≠
        "failed to re-enqueue after 1 retries" ∧
      "Failed to re-enqueue after 1 retries: queue is closed, cannot enqueue new jobs" ≠
        "Failed to re-enqueue after 1 retries" :=
  ⟨_, rfl, by decide, by decide, by decide⟩

/-- **C8, amended.** When a job fails with `Retries < maxRetries`, `ProcessEmailJob`
arms a timer for the job with `Retries` one greater and writes nothing to the
dead-letter queue. When that timer later fires, in whatever state: if the re-enqueue
fails with error text `err`, the job is appended to the dead-letter queue exactly once,
with reason "Failed to re-enqueue after N retries: err" where `N` is the incremented
`Retries`, the dead-letter counter goes up by one and the dead-lettered signal is
emitted once; if the re-enqueue succeeds, the dead-letter queue, its counter and the
signals are left as they were. -/
theorem C8_reenqueue_failure_dead_letters (s : emailService) (job : EmailJob)
    (draw elapsed now : Nat) (hfail : 80 ≤ draw) (hlt : job.Retries < s.maxRetries) :
    (s.ProcessEmailJob job draw elapsed now).timers =
      s.timers ++ [⟨s.retryDelaySeconds, { job with Retries := job.Retries + 1 }⟩] ∧
    (s.ProcessEmailJob job draw elapsed now).dlq = s.dlq ∧
    ∀ (st : emailService) (rest : List Timer) (now1 : Nat),
      st.timers = ⟨s.retryDelaySeconds, { job with Retries := job.Retries + 1 }⟩ :: rest →
      (∀ err q1, st.queue.Enqueue { job with Retries := job.Retries + 1 } = .ret (some err, q1) →
        ∃ st1, st.fireTimer now1 = .ret st1 ∧
          st1.dlq.failedJobs = st.dlq.failedJobs ++ [⟨{ job with Retries := job.Retries + 1 },
            "Failed to re-enqueue after " ++ toString (job.Retries + 1) ++ " retries: " ++ err,
            now1⟩] ∧
          st1.dlqCounter = st.dlqCounter + 1 ∧
          st1.signals = st.signals ++ [.deadLettered] ∧ st1.timers = rest) ∧
      (∀ q1, st.queue.Enqueue { job with Retries := job.Retries + 1 } = .ret (none, q1) →
        ∃ st1, st.fireTimer now1 = .ret st1 ∧ st1.dlq = st.dlq ∧
          st1.dlqCounter = st.dlqCounter ∧ st1.signals = st.signals ∧ st1.timers = rest) := by
  have hnot : ¬ draw < 80 := Nat.not_lt.mpr hfail
  refine ⟨by simp [emailService.ProcessEmailJob, hnot, hlt],
    by simp [emailService.ProcessEmailJob, hnot, hlt], ?_⟩
  intro st rest now1 ht
  constructor
  · intro err q1 he
    have hfire : st.fireTimer now1 = .ret
        { st with timers := rest, queue := q1,
                  dlq := st.dlq.Store { job with Retries := job.Retries + 1 }
                    (reasonReenqueue (job.Retries + 1) err) now1,
                  dlqCounter := st.dlqCounter + 1,
                  signals := st.signals ++ [.deadLettered] } := by
      simp only [emailService.fireTimer, ht, emailService.retryClosure, he]
    exact ⟨_, hfire, rfl, rfl, rfl, rfl⟩
  · intro q1 he
    have hfire : st.fireTimer now1 = .ret { st with timers := rest, queue := q1 } := by
      simp only [emailService.fireTimer, ht, emailService.retryClosure, he]
    exact ⟨_, hfire, rfl, rfl, rfl, rfl⟩

/-- Instance of C8 as amended: the sample job failing on the service whose queue is closed. -/
theorem C8_reenqueue_failure_dead_letters_witness :
    (closedService.ProcessEmailJob sampleJob 99 1 0).timers =
      closedService.timers ++
        [⟨closedService.retryDelaySeconds, { sampleJob with Retries := sampleJob.Retries + 1 }⟩] ∧
    (closedService.ProcessEmailJob sampleJob 99 1 0).dlq = closedService.dlq ∧
    ∀ (st : emailService) (rest : List Timer) (now1 : Nat),
      st.timers = ⟨closedService.retryDelaySeconds,
        { sampleJob with Retries := sampleJob.Retries + 1 }⟩ :: rest →
      (∀ err q1, st.queue.Enqueue { sampleJob with Retries := sampleJob.Retries + 1 } =
          .ret (some err, q1) →
        ∃ st1, st.fireTimer now1 = .ret st1 ∧
          st1.dlq.failedJobs = st.dlq.failedJobs ++
            [⟨{ sampleJob with Retries := sampleJob.Retries + 1 },
              "Failed to re-enqueue after " ++ toString (sampleJob.Retries + 1) ++ " retries: " ++ err,
              now1⟩] ∧
          st1.dlqCounter = st.dlqCounter + 1 ∧
          st1.signals = st.signals ++ [.deadLettered] ∧ st1.timers = rest) ∧
      (∀ q1, st.queue.Enqueue { sampleJob with Retries := sampleJob.Retries + 1 } =
          .ret (none, q1) →
        ∃ st1, st.fireTimer now1 = .ret st1 ∧ st1.dlq = st.dlq ∧
          st1.dlqCounter = st.dlqCounter ∧ st1.signals = st.signals ∧ st1.timers = rest) :=
  C8_reenqueue_failure_dead_letters closedService sampleJob 99 1 0 (by decide) (by decide)

/-- **C9.** When a delivery attempt fails with `Retries < maxRetries`,
`ProcessEmailJob` arms exactly one timer, whose job has `Retries` one greater than
the processed job and the same `To`, `Subject` and `Body`; when the closure of that
timer runs it either appends that very job to the queue, or leaves the queue and
dead-letters that very job. On every path of `ProcessEmailJob` the queue is left as
it was, and each job it arms for re-enqueue or stores in the dead-letter queue has
`Retries` at least that of the job it was given. -/
theorem C9_retry_increments_attempt_count (s : emailService) (job : EmailJob)
    (draw elapsed now : Nat) :
    (80 ≤ draw → job.Retries < s.maxRetries →
      ∃ job1, (s.ProcessEmailJob job draw elapsed now).timers =
          s.timers ++ [⟨s.retryDelaySeconds, job1⟩] ∧
        job1.Retries = job.Retries + 1 ∧ job1.To = job.To ∧ job1.Subject = job.Subject ∧
        job1.Body = job.Body ∧
        ∀ (st st1 : emailService) (now1 : Nat), st.retryClosure job1 now1 = .ret st1 →
          (st1.queue.buffered = st.queue.buffered ++ [job1] ∧ st1.dlq = st.dlq) ∨
          (st1.queue.buffered = st.queue.buffered ∧
            ∃ reason, st1.dlq.failedJobs = st.dlq.failedJobs ++ [⟨job1, reason, now1⟩])) ∧
    (∃ armed stored,
      (s.ProcessEmailJob job draw elapsed now).timers = s.timers ++ armed ∧
      (s.ProcessEmailJob job draw elapsed now).dlq.failedJobs = s.dlq.failedJobs ++ stored ∧
      (∀ t ∈ armed, job.Retries ≤ t.job.Retries) ∧
      (∀ e ∈ stored, job.Retries ≤ e.Job.Retries)) ∧
    (s.ProcessEmailJob job draw elapsed now).queue = s.queue := by
  refine ⟨?_, ?_, ?_⟩
  · intro hfail hlt
    have hnot : ¬ draw < 80 := Nat.not_lt.mpr hfail
    refine ⟨{ job with Retries := job.Retries + 1 },
      by simp [emailService.ProcessEmailJob, hnot, hlt], rfl, rfl, rfl, rfl, ?_⟩
    intro st st1 now1 hrun
    cases he : st.queue.Enqueue { job with Retries := job.Retries + 1 } with
    | ret r =>
      obtain ⟨e, q1⟩ := r
      have hbuf := Queue.Enqueue_buffered st.queue q1 _ e he
      cases e with
      | none =>
        simp only [emailService.retryClosure, he, Go.ret.injEq] at hrun
        subst hrun
        exact Or.inl ⟨hbuf.1 rfl, rfl⟩
      | some err =>
        simp only [emailService.retryClosure, he, Go.ret.injEq] at hrun
        subst hrun
        exact Or.inr ⟨hbuf.2 (by simp), _, rfl⟩
    | panics => simp [emailService.retryClosure, he] at hrun
    | blocks => simp [emailService.retryClosure, he] at hrun
  · by_cases hs : draw < 80
    · exact ⟨[], [], by simp [emailService.ProcessEmailJob, hs],
        by simp [emailService.ProcessEmailJob, hs], by simp, by simp⟩
    · by_cases hlt : job.Retries < s.maxRetries
      · refine ⟨[⟨s.retryDelaySeconds, { job with Retries := job.Retries + 1 }⟩], [],
          by simp [emailService.ProcessEmailJob, hs, hlt],
          by simp [emailService.ProcessEmailJob, hs, hlt], ?_, by simp⟩
        intro t ht
        rw [List.mem_singleton] at ht
        subst ht
        simp
      · refine ⟨[], [⟨job, reasonPermanent job.Retries, now⟩],
          by simp [emailService.ProcessEmailJob, hs, hlt],
          by simp [emailService.ProcessEmailJob, hs, hlt, InMemoryDLQ.Store], by simp, ?_⟩
        intro e he
        rw [List.mem_singleton] at he
        subst he
        exact le_refl _
  · by_cases hs : draw < 80
    · simp [emailService.ProcessEmailJob, hs]
    · by_cases hlt : job.Retries < s.maxRetries <;> simp [emailService.ProcessEmailJob, hs, hlt]

/-- Instance of C9: the sample job failing on a fresh service with `maxRetries = 3`. -/
theorem C9_retry_increments_attempt_count_witness :
    (80 ≤ 99 → sampleJob.Retries < (sampleService [] 3).maxRetries →
      ∃ job1, ((sampleService [] 3).ProcessEmailJob sampleJob 99 1 0).timers =
          (sampleService [] 3).timers ++ [⟨(sampleService [] 3).retryDelaySeconds, job1⟩] ∧
        job1.Retries = sampleJob.Retries + 1 ∧ job1.To = sampleJob.To ∧
        job1.Subject = sampleJob.Subject ∧ job1.Body = sampleJob.Body ∧
        ∀ (st st1 : emailService) (now1 : Nat), st.retryClosure job1 now1 = .ret st1 →
          (st1.queue.buffered = st.queue.buffered ++ [job1] ∧ st1.dlq = st.dlq) ∨
          (st1.queue.buffered = st.queue.buffered ∧
            ∃ reason, st1.dlq.failedJobs = st.dlq.failedJobs ++ [⟨job1, reason, now1⟩])) ∧
    (∃ armed stored,
      ((sampleService [] 3).ProcessEmailJob sampleJob 99 1 0).timers =
        (sampleService [] 3).timers ++ armed ∧
      ((sampleService [] 3).ProcessEmailJob sampleJob 99 1 0).dlq.failedJobs =
        (sampleService [] 3).dlq.failedJobs ++ stored ∧
      (∀ t ∈ armed, sampleJob.Retries ≤ t.job.Retries) ∧
      (∀ e ∈ stored, sampleJob.Retries ≤ e.Job.Retries)) ∧
    ((sampleService [] 3).ProcessEmailJob sampleJob 99 1 0).queue = (sampleService [] 3).queue :=
  C9_retry_increments_attempt_count (sampleService [] 3) sampleJob 99 1 0

/-- **C10.** When the delivery attempt succeeds, `ProcessEmailJob` changes only the
processed counter (one more, one processed signal) and the duration histogram (one
more observation): the dead-letter queue, the queue, the armed timers (no scheduled
enqueue) and the other four counters are left as they were. -/
theorem C10_success_frame (s : emailService) (job : EmailJob) (draw elapsed now : Nat)
    (hsuccess : draw < 80) :
    s.ProcessEmailJob job draw elapsed now =
      { s with processedCounter := s.processedCounter + 1,
               signals := s.signals ++ [.processed],
               processingDurationGauge := s.processingDurationGauge ++ [elapsed] } ∧
    (s.ProcessEmailJob job draw elapsed now).dlq = s.dlq ∧
    (s.ProcessEmailJob job draw elapsed now).queue = s.queue ∧
    (s.ProcessEmailJob job draw elapsed now).timers = s.timers ∧
    (s.ProcessEmailJob job draw elapsed now).enqueuedCounter = s.enqueuedCounter ∧
    (s.ProcessEmailJob job draw elapsed now).failedCounter = s.failedCounter ∧
    (s.ProcessEmailJob job draw elapsed now).retriedCounter = s.retriedCounter ∧
    (s.ProcessEmailJob job draw elapsed now).dlqCounter = s.dlqCounter ∧
    (s.ProcessEmailJob job draw elapsed now).processedCounter = s.processedCounter + 1 ∧
    (s.ProcessEmailJob job draw elapsed now).processingDurationGauge =
      s.processingDurationGauge ++ [elapsed] := by
  have h : s.ProcessEmailJob job draw elapsed now =
      { s with processedCounter := s.processedCounter + 1,
               signals := s.signals ++ [.processed],
               processingDurationGauge := s.processingDurationGauge ++ [elapsed] } := by
    simp [emailService.ProcessEmailJob, hsuccess]
  rw [h]
  exact ⟨rfl, rfl, rfl, rfl, rfl, rfl, rfl, rfl, rfl, rfl⟩

/-- Instance of C10: the sample job delivered (draw 10) on a fresh service. -/
theorem C10_success_frame_witness :
    (sampleService [sampleJob] 3).ProcessEmailJob sampleJob 10 1 0 =
      { sampleService [sampleJob] 3 with
          processedCounter := (sampleService [sampleJob] 3).processedCounter + 1,
          signals := (sampleService [sampleJob] 3).signals ++ [.processed],
          processingDurationGauge := (sampleService [sampleJob] 3).processingDurationGauge ++ [1] } ∧
    ((sampleService [sampleJob] 3).ProcessEmailJob sampleJob 10 1 0).dlq =
      (sampleService [sampleJob] 3).dlq ∧
    ((sampleService [sampleJob] 3).ProcessEmailJob sampleJob 10 1 0).queue =
      (sampleService [sampleJob] 3).queue ∧
    ((sampleService [sampleJob] 3).ProcessEmailJob sampleJob 10 1 0).timers =
      (sampleService [sampleJob] 3).timers ∧
    ((sampleService [sampleJob] 3).ProcessEmailJob sampleJob 10 1 0).enqueuedCounter =
      (sampleService [sampleJob] 3).enqueuedCounter ∧
    ((sampleService [sampleJob] 3).ProcessEmailJob sampleJob 10 1 0).failedCounter =
      (sampleService [sampleJob] 3).failedCounter ∧
    ((sampleService [sampleJob] 3).ProcessEmailJob sampleJob 10 1 0).retriedCounter =
      (sampleService [sampleJob] 3).retriedCounter ∧
    ((sampleService [sampleJob] 3).ProcessEmailJob sampleJob 10 1 0).dlqCounter =
      (sampleService [sampleJob] 3).dlqCounter ∧
    ((sampleService [sampleJob] 3).ProcessEmailJob sampleJob 10 1 0).processedCounter =
      (sampleService [sampleJob] 3).processedCounter + 1 ∧
    ((sampleService [sampleJob] 3).ProcessEmailJob sampleJob 10 1 0).processingDurationGauge =
      (sampleService [sampleJob] 3).processingDurationGauge ++ [1] :=
  C10_success_frame (sampleService [sampleJob] 3) sampleJob 10 1 0 (by decide)

/-! ## The dead-letter queue -/

theorem InMemoryDLQ.storeAll_failedJobs (calls : List (EmailJob × String × Nat)) :
    ∀ d : InMemoryDLQ, (d.storeAll calls).failedJobs =
      d.failedJobs ++ calls.map (fun c => (⟨c.1, c.2.1, c.2.2⟩ : dlqEntry)) := by
  induction calls with
  | nil => intro d; simp [InMemoryDLQ.storeAll]
  | cons c rest ih =>
    intro d
    simp [InMemoryDLQ.storeAll, ih, InMemoryDLQ.Store]

/-- **C11.** For every dead-letter queue state, job and reason, `Store` appends
exactly one entry, carrying that job and that reason, at the end of the entry list:
the list is one longer and its earlier part is the old list, entry for entry. After
any `n` `Store` calls on a fresh dead-letter queue the list holds exactly the `n`
entries of the calls, in call order. -/
theorem C11_store_appends (d : InMemoryDLQ) (job : EmailJob) (reason : String) (now : Nat)
    (calls : List (EmailJob × String × Nat)) :
    (d.Store job reason now).failedJobs = d.failedJobs ++ [⟨job, reason, now⟩] ∧
    (d.Store job reason now).failedJobs.length = d.failedJobs.length + 1 ∧
    (d.Store job reason now).failedJobs.take d.failedJobs.length = d.failedJobs ∧
    (NewInMemoryDLQ.storeAll calls).failedJobs =
      calls.map (fun c => (⟨c.1, c.2.1, c.2.2⟩ : dlqEntry)) ∧
    (NewInMemoryDLQ.storeAll calls).failedJobs.length = calls.length := by
  have h : (NewInMemoryDLQ.storeAll calls).failedJobs =
      calls.map (fun c => (⟨c.1, c.2.1, c.2.2⟩ : dlqEntry)) := by
    rw [InMemoryDLQ.storeAll_failedJobs calls NewInMemoryDLQ]
    rfl
  refine ⟨rfl, by simp [InMemoryDLQ.Store], by simp [InMemoryDLQ.Store], h, ?_⟩
  rw [h, List.length_map]

/-! ## Closing a queue -/

/-- `Close` on a queue whose flag is set returns at once and changes nothing. -/
theorem Queue.Close_of_closed (q : Queue) (h : q.IsClosed = true) : q.Close = .ret q := by
  cases q with
  | memory m =>
    have hc : m.closed = true := h
    simp [Queue.Close, MemoryQueue.Close, hc]
  | redis r =>
    have hc : r.closed = true := h
    simp [Queue.Close, RedisQueue.Close, hc]

/-- `Enqueue` on a queue whose flag is set returns the queue-closed error and changes
nothing. -/
theorem Queue.Enqueue_of_closed (q : Queue) (job : EmailJob) (h : q.IsClosed = true) :
    q.Enqueue job = .ret (some errQueueClosed, q) := by
  cases q with
  | memory m =>
    have hc : m.closed = true := h
    simp [Queue.Enqueue, MemoryQueue.Enqueue, MemoryQueue.EnqueueParked, hc]
  | redis r =>
    have hc : r.closed = true := h
    simp [Queue.Enqueue, RedisQueue.Enqueue, hc]

/-- No call that returns clears the closed flag. -/
theorem Queue.call_closed (q q1 : Queue) (op : QueueOp) (h : q.IsClosed = true)
    (hcall : q.call op = .ret q1) : q1.IsClosed = true := by
  cases op with
  | enqueue job =>
    simp only [Queue.call, Queue.Enqueue_of_closed q job h, Go.ret.injEq] at hcall
    rw [← hcall]
    exact h
  | dequeue =>
    cases q with
    | memory m =>
      have hc : m.closed = true := h
      cases hb : m.Jobs.buf with
      | nil =>
        cases hch : m.Jobs.closed with
        | true =>
          simp [Queue.call, Queue.Dequeue, MemoryQueue.Dequeue, Chan.recv, hb, hch] at hcall
          subst hcall
          simpa [Queue.IsClosed, MemoryQueue.IsClosed] using hc
        | false =>
          simp [Queue.call, Queue.Dequeue, MemoryQueue.Dequeue, Chan.recv, hb, hch] at hcall
      | cons j rest =>
        simp [Queue.call, Queue.Dequeue, MemoryQueue.Dequeue, Chan.recv, hb] at hcall
        subst hcall
        simpa [Queue.IsClosed, MemoryQueue.IsClosed] using hc
    | redis r =>
      have hc : r.closed = true := h
      cases hf : r.client.fault with
      | some err =>
        simp [Queue.call, Queue.Dequeue, RedisQueue.Dequeue, RedisClient.BLPop, hf] at hcall
        subst hcall
        simpa [Queue.IsClosed, RedisQueue.IsClosed] using hc
      | none =>
        cases hl : r.client.list with
        | nil =>
          simp [Queue.call, Queue.Dequeue, RedisQueue.Dequeue, RedisClient.BLPop, hf, hl] at hcall
        | cons v rest =>
          cases v with
          | json job =>
            simp [Queue.call, Queue.Dequeue, RedisQueue.Dequeue, RedisClient.BLPop, hf, hl] at hcall
            subst hcall
            simpa [Queue.IsClosed, RedisQueue.IsClosed] using hc
          | raw bytes =>
            simp [Queue.call, Queue.Dequeue, RedisQueue.Dequeue, RedisClient.BLPop, hf, hl] at hcall
            subst hcall
            simpa [Queue.IsClosed, RedisQueue.IsClosed] using hc
  | close =>
    simp only [Queue.call, Queue.Close_of_closed q h, Go.ret.injEq] at hcall
    rw [← hcall]
    exact h
  | isClosed =>
    simp only [Queue.call, Go.ret.injEq] at hcall
    rw [← hcall]
    exact h

theorem Queue.exec_closed (ops : List QueueOp) :
    ∀ q q1 : Queue, q.IsClosed = true → q.exec ops = .ret q1 → q1.IsClosed = true := by
  induction ops with
  | nil =>
    intro q q1 h hexec
    simp only [Queue.exec, Go.ret.injEq] at hexec
    rw [← hexec]
    exact h
  | cons op ops ih =>
    intro q q1 h hexec
    cases hcall : q.call op with
    | ret q2 =>
      simp only [Queue.exec, hcall] at hexec
      exact ih q2 q1 (Queue.call_closed q q2 op h hcall) hexec
    | panics => simp [Queue.exec, hcall] at hexec
    | blocks => simp [Queue.exec, hcall] at hexec

/-- **C12.** For both queue variants: `Close` on a queue that is already closed
returns without failing and leaves the state as it was; on a well-formed queue
`Close` always returns; after a `Close` the queue is closed and a second `Close`
leaves exactly the state of the first; and after any sequence of `Enqueue`,
`Dequeue`, `Close` and `IsClosed` calls that contains a `Close` and has returned,
`IsClosed` reports `true`. -/
theorem C12_close_idempotent_closed_monotone (q : Queue) :
    (q.IsClosed = true → q.Close = .ret q) ∧
    (q.WF → ∃ q1, q.Close = .ret q1) ∧
    (∀ q1, q.Close = .ret q1 → q1.IsClosed = true ∧ q1.Close = .ret q1) ∧
    (∀ ops q1, QueueOp.close ∈ ops → q.exec ops = .ret q1 → q1.IsClosed = true) := by
  refine ⟨Queue.Close_of_closed q, ?_, ?_, ?_⟩
  · intro hwf
    cases q with
    | memory m =>
      obtain ⟨m1, h1, -⟩ := MemoryQueue.Close_ok m hwf
      exact ⟨.memory m1, by simp [Queue.Close, h1]⟩
    | redis r => exact ⟨_, rfl⟩
  · intro q1 h
    have hc := Queue.Close_IsClosed q q1 h
    exact ⟨hc, Queue.Close_of_closed q1 hc⟩
  · intro ops
    induction ops generalizing q with
    | nil => intro q1 hmem; simp at hmem
    | cons op ops ih =>
      intro q1 hmem hexec
      cases hcall : q.call op with
      | ret q2 =>
        simp only [Queue.exec, hcall] at hexec
        by_cases hop : op = QueueOp.close
        · subst hop
          exact Queue.exec_closed ops q2 q1 (Queue.Close_IsClosed q q2 hcall) hexec
        · have hmem1 : QueueOp.close ∈ ops := by
            rcases List.mem_cons.mp hmem with h | h
            · exact absurd h.symm hop
            · exact h
          exact ih q2 q1 hmem1 hexec
      | panics => simp [Queue.exec, hcall] at hexec
      | blocks => simp [Queue.exec, hcall] at hexec

/-- Instance of C12: on the open sample queue holding one job, an enqueue, two
dequeues, an `IsClosed`, two `Close` calls and further calls all return, and the
queue is closed at the end. -/
theorem C12_close_idempotent_closed_monotone_witness :
    ∃ q1, (Queue.memory (sampleQueue [sampleJob] false)).exec
        [.enqueue sampleJob, .dequeue, .isClosed, .close, .dequeue, .close,
          .enqueue sampleJob, .dequeue, .isClosed] = .ret q1 ∧
      q1.IsClosed = true :=
  ⟨Queue.memory (sampleQueue [] true), by decide,
    (C12_close_idempotent_closed_monotone (Queue.memory (sampleQueue [sampleJob] false))).2.2.2
      [.enqueue sampleJob, .dequeue, .isClosed, .close, .dequeue, .close,
        .enqueue sampleJob, .dequeue, .isClosed]
      (Queue.memory (sampleQueue [] true)) (by decide) (by decide)⟩

/-! ## The inbound boundary -/

/-- What `EnqueueEmail` does to the buffered jobs: it appends the job when it returns
`nil` and leaves them as they were when it returns an error. -/
theorem emailService.EnqueueEmail_buffered (s s1 : emailService) (job : EmailJob) (e : GoError)
    (h : s.EnqueueEmail job = .ret (e, s1)) :
    s1.queue.buffered = s.queue.buffered ∨ s1.queue.buffered = s.queue.buffered ++ [job] := by
  cases hq : s.queue.Enqueue job with
  | ret r =>
    obtain ⟨e1, q1⟩ := r
    have hbuf := Queue.Enqueue_buffered s.queue q1 job e1 hq
    cases e1 with
    | none =>
      simp only [emailService.EnqueueEmail, hq, Go.ret.injEq, Prod.mk.injEq] at h
      obtain ⟨-, rfl⟩ := h
      exact Or.inr (hbuf.1 rfl)
    | some err =>
      simp only [emailService.EnqueueEmail, hq, Go.ret.injEq, Prod.mk.injEq] at h
      obtain ⟨-, rfl⟩ := h
      exact Or.inl (hbuf.2 (by simp))
  | panics => simp [emailService.EnqueueEmail, hq] at h
  | blocks => simp [emailService.EnqueueEmail, hq] at h

/-- **C14.** `Validate` returns an error if and only if the recipient, the subject
or the body is empty or the recipient does not parse as an address. A POST request
whose job fails `Validate` is answered 422 and the service is left as it was (no
enqueue). A POST request whose job passes is answered from `EnqueueEmail` called on
the job with `Retries` set to 0, whatever `Retries` the payload carried. For every
request, either the service is left as it was, or its new state is the result of
`EnqueueEmail` on a job that passed `Validate`, with `Retries = 0`; the only job the
handler can add to the queue is such a job. -/
theorem C14_enqueue_only_validated_with_zero_retries (parseAddress : String → GoError)
    (s : emailService) (r : Request) (job : EmailJob) :
    ((job.Validate parseAddress ≠ none) ↔
      (job.To = "" ∨ job.Subject = "" ∨ job.Body = "" ∨ parseAddress job.To ≠ none)) ∧
    (r.Method = "POST" → r.Body = some job → job.Validate parseAddress ≠ none →
      SendEmail parseAddress s r = .ret (StatusUnprocessableEntity, s)) ∧
    (r.Method = "POST" → r.Body = some job → job.Validate parseAddress = none →
      SendEmail parseAddress s r =
        match s.EnqueueEmail { job with Retries := 0 } with
        | .ret (some msg, s1) => .ret (enqueueErrorStatus msg, s1)
        | .ret (none, s1) => .ret (StatusAccepted, s1)
        | .panics => .panics
        | .blocks => .blocks) ∧
    (∀ status s1, SendEmail parseAddress s r = .ret (status, s1) →
      s1 = s ∨ ∃ j e, r.Body = some j ∧ j.Validate parseAddress = none ∧
        s.EnqueueEmail { j with Retries := 0 } = .ret (e, s1) ∧
        (s1.queue.buffered = s.queue.buffered ∨
          s1.queue.buffered = s.queue.buffered ++ [{ j with Retries := 0 }])) := by
  refine ⟨?_, ?_, ?_, ?_⟩
  · unfold EmailJob.Validate
    by_cases h1 : job.To = ""
    · simp [h1]
    · by_cases h2 : job.Subject = ""
      · simp [h1, h2]
      · by_cases h3 : job.Body = ""
        · simp [h1, h2, h3]
        · cases h4 : parseAddress job.To <;> simp [h1, h2, h3, h4]
  · intro hm hb hv
    cases hval : job.Validate parseAddress with
    | none => exact absurd hval hv
    | some err => simp [SendEmail, hm, hb, hval]
  · intro hm hb hv
    simp only [SendEmail, hm, hb, hv, ne_eq, not_true_eq_false, if_false]
  · intro status s1 h
    by_cases hm : r.Method = "POST"
    · cases hb : r.Body with
      | none =>
        simp [SendEmail, hm, hb] at h
        exact Or.inl h.2.symm
      | some j =>
        cases hval : j.Validate parseAddress with
        | some err =>
          simp [SendEmail, hm, hb, hval] at h
          exact Or.inl h.2.symm
        | none =>
          right
          cases he : s.EnqueueEmail { j with Retries := 0 } with
          | ret res =>
            obtain ⟨e, s2⟩ := res
            have hs : s2 = s1 := by
              cases e <;> simp [SendEmail, hm, hb, hval, he] at h <;> exact h.2
            subst hs
            exact ⟨j, e, rfl, hval, he,
              emailService.EnqueueEmail_buffered s s2 { j with Retries := 0 } e he⟩
          | panics => simp [SendEmail, hm, hb, hval, he] at h
          | blocks => simp [SendEmail, hm, hb, hval, he] at h
    · simp [SendEmail, hm] at h
      exact Or.inl h.2.symm

/-- Instance of C14: a POST request whose valid payload carries `Retries = 7` is
answered from `EnqueueEmail` on the job with `Retries = 0`, and one whose payload has
an empty subject is answered 422 with the service left as it was. -/
theorem C14_enqueue_only_validated_with_zero_retries_witness :
    (SendEmail acceptAll (sampleService [] 3) ⟨"POST", some ⟨"a@b.c", "hello", "text", 7⟩⟩ =
      match (sampleService [] 3).EnqueueEmail
          { (⟨"a@b.c", "hello", "text", 7⟩ : EmailJob) with Retries := 0 } with
      | .ret (some msg, s1) => .ret (enqueueErrorStatus msg, s1)
      | .ret (none, s1) => .ret (StatusAccepted, s1)
      | .panics => .panics
      | .blocks => .blocks) ∧
    SendEmail acceptAll (sampleService [] 3) ⟨"POST", some ⟨"a@b.c", "", "text", 7⟩⟩ =
      .ret (StatusUnprocessableEntity, sampleService [] 3) :=
  ⟨(C14_enqueue_only_validated_with_zero_retries acceptAll (sampleService [] 3)
      ⟨"POST", some ⟨"a@b.c", "hello", "text", 7⟩⟩ ⟨"a@b.c", "hello", "text", 7⟩).2.2.1
      rfl rfl (by decide),
    (C14_enqueue_only_validated_with_zero_retries acceptAll (sampleService [] 3)
      ⟨"POST", some ⟨"a@b.c", "", "text", 7⟩⟩ ⟨"a@b.c", "", "text", 7⟩).2.1
      rfl rfl (by decide)⟩

/-! ## Configuration -/

/-- The guards of `LoadConfig` that hold for every environment: `MaxRetries` is not
negative, `RetryDelaySeconds` is positive, `WorkerCount` and `QueueCapacity` are not
zero, and an unset or unparsable value gives the default. -/
theorem LoadConfig_guards (atoi : String → Option Int) (getenv : String → String) :
    0 ≤ (LoadConfig atoi getenv).MaxRetries ∧
    0 < (LoadConfig atoi getenv).RetryDelaySeconds ∧
    (LoadConfig atoi getenv).WorkerCount ≠ 0 ∧
    (LoadConfig atoi getenv).QueueCapacity ≠ 0 ∧
    (atoi (getenv "WORKER_COUNT") = none → (LoadConfig atoi getenv).WorkerCount = 3) ∧
    (atoi (getenv "QUEUE_CAPACITY") = none → (LoadConfig atoi getenv).QueueCapacity = 100) ∧
    (atoi (getenv "MAX_RETRIES") = none → (LoadConfig atoi getenv).MaxRetries = 3) ∧
    (atoi (getenv "RETRY_DELAY_SECONDS") = none →
      (LoadConfig atoi getenv).RetryDelaySeconds = 5) := by
  refine ⟨?_, ?_, ?_, ?_, ?_, ?_, ?_, ?_⟩
  · simp only [LoadConfig]
    cases atoi (getenv "MAX_RETRIES") with
    | none => simp
    | some v => by_cases h : v < 0 <;> simp [h]; omega
  · simp only [LoadConfig]
    cases atoi (getenv "RETRY_DELAY_SECONDS") with
    | none => simp
    | some v => by_cases h : v ≤ 0 <;> simp [h]; omega
  · simp only [LoadConfig]
    cases atoi (getenv "WORKER_COUNT") with
    | none => simp
    | some v => by_cases h : v = 0 <;> simp [h]
  · simp only [LoadConfig]
    cases atoi (getenv "QUEUE_CAPACITY") with
    | none => simp
    | some v => by_cases h : v = 0 <;> simp [h]
  · intro h; simp [LoadConfig, h]
  · intro h; simp [LoadConfig, h]
  · intro h; simp [LoadConfig, h]
  · intro h; simp [LoadConfig, h]

/-- **C15.** What `LoadConfig` returns when `QUEUE_CAPACITY` is "-1" and
`WORKER_COUNT` is "-2": both values parse, neither is 0, and `LoadConfig` keeps them,
so `QueueCapacity` and `WorkerCount` are negative and `NewMemoryQueue` on that
capacity panics in `make`. The claim that they are positive and that the buffer can
always be built fails. -/
theorem C15_negative_capacity_kept :
    (LoadConfig Atoi negativeEnviron).QueueCapacity = -1 ∧
    (LoadConfig Atoi negativeEnviron).WorkerCount = -2 ∧
    (LoadConfig Atoi negativeEnviron).UseRedisQueue = false ∧
    NewMemoryQueue (LoadConfig Atoi negativeEnviron).QueueCapacity = .panics := by
  decide

/-! ## The signals of a failing job -/

theorem failingSignals_shape (d : Nat) :
    failingSignals d =
      (List.replicate d [Signal.failed, Signal.retried]).flatten ++
        [Signal.failed, Signal.deadLettered] := by
  induction d with
  | zero => rfl
  | succ d ih => simp [failingSignals, ih, List.replicate_succ]

theorem failingSignals_counts (d : Nat) :
    (failingSignals d).count .failed = d + 1 ∧ (failingSignals d).count .retried = d ∧
    (failingSignals d).count .deadLettered = 1 ∧ (failingSignals d).count .enqueued = 0 ∧
    (failingSignals d).count .processed = 0 ∧
    (failingSignals d).getLast? = some .deadLettered := by
  induction d with
  | zero => decide
  | succ d ih =>
    obtain ⟨h1, h2, h3, h4, h5, h6⟩ := ih
    refine ⟨?_, ?_, ?_, ?_, ?_, ?_⟩
    · simp [failingSignals, List.count_cons, h1]
    · simp [failingSignals, List.count_cons, h2]
    · simp [failingSignals, List.count_cons, h3]
    · simp [failingSignals, List.count_cons, h4]
    · simp [failingSignals, List.count_cons, h5]
    · cases d with
      | zero => rfl
      | succ k =>
        simp only [failingSignals, List.getLast?_cons_cons] at h6 ⊢
        exact h6

/-- `EnqueueEmail` on an empty working queue: the job is accepted, the enqueued
signal is emitted, nothing else changes. -/
theorem emailService.EnqueueEmail_ready (s : emailService) (job : EmailJob)
    (hq : s.queue.Ready []) :
    ∃ s1, s.EnqueueEmail job = .ret (none, s1) ∧ s1.queue.Ready [job] ∧
      s1.signals = s.signals ++ [.enqueued] ∧ s1.timers = s.timers ∧ s1.dlq = s.dlq ∧
      s1.maxRetries = s.maxRetries := by
  obtain ⟨q1, he, hq1⟩ := Queue.Ready.enqueue_empty s.queue job hq
  exact ⟨{ s with queue := q1, enqueuedCounter := s.enqueuedCounter + 1,
                  signals := s.signals ++ [.enqueued] },
    by simp only [emailService.EnqueueEmail, he], hq1, rfl, rfl, rfl, rfl⟩

/-- The signals of a failed attempt below the retry limit: failed, then retried. -/
theorem System.step_retry_signals (env : Env) (n : Nat) (s : emailService) (j : EmailJob)
    (hq : s.queue.Ready [j]) (ht : s.timers = []) (hfail : 80 ≤ env.draw n)
    (hlt : j.Retries < s.maxRetries) :
    ∃ s1, System.step env n s = some (.processed j, s1) ∧ s1.queue.Ready [] ∧
      s1.timers = [⟨s.retryDelaySeconds, { j with Retries := j.Retries + 1 }⟩] ∧
      s1.maxRetries = s.maxRetries ∧ s1.signals = s.signals ++ [.failed, .retried] := by
  obtain ⟨q1, hd, hq1⟩ := Queue.Ready.dequeue_one s.queue j hq
  refine ⟨_, System.step_of_worker env n s _ ht (System.workerStep_of_dequeue env n s j q1 hd), ?_⟩
  have hnot : ¬ env.draw n < 80 := Nat.not_lt.mpr hfail
  simp [emailService.ProcessEmailJob, hnot, hlt, ht, hq1]

/-- The signals of a failed attempt at the retry limit: failed, then dead-lettered. -/
theorem System.step_dead_letter_signals (env : Env) (n : Nat) (s : emailService) (j : EmailJob)
    (hq : s.queue.Ready [j]) (ht : s.timers = []) (hfail : 80 ≤ env.draw n)
    (hge : ¬ j.Retries < s.maxRetries) :
    ∃ s1, System.step env n s = some (.processed j, s1) ∧ s1.queue.Ready [] ∧
      s1.timers = [] ∧ s1.signals = s.signals ++ [.failed, .deadLettered] := by
  obtain ⟨q1, hd, hq1⟩ := Queue.Ready.dequeue_one s.queue j hq
  refine ⟨_, System.step_of_worker env n s _ ht (System.workerStep_of_dequeue env n s j q1 hd), ?_⟩
  have hnot : ¬ env.draw n < 80 := Nat.not_lt.mpr hfail
  simp [emailService.ProcessEmailJob, hnot, hge, ht, hq1]

/-- A timer firing on an empty working queue emits no signal. -/
theorem System.step_fire_signals (env : Env) (n : Nat) (s : emailService) (t : Timer)
    (hq : s.queue.Ready []) (ht : s.timers = [t]) :
    ∃ s1, System.step env n s = some (.fired t.job, s1) ∧ s1.queue.Ready [t.job] ∧
      s1.timers = [] ∧ s1.maxRetries = s.maxRetries ∧ s1.signals = s.signals := by
  obtain ⟨q1, he, hq1⟩ := Queue.Ready.enqueue_empty s.queue t.job hq
  have hw : System.workerStep env n s = none :=
    System.workerStep_of_blocks env n s (Queue.Ready.dequeue_empty s.queue hq)
  refine ⟨{ s with timers := [], queue := q1 }, ?_, hq1, rfl, rfl, rfl⟩
  cases hf : env.timerFirst n <;>
    simp [System.step, System.timerStep, emailService.fireTimer, emailService.retryClosure,
      ht, hw, hf, he]

/-- The signals of the whole life of a job whose delivery always fails, `d` retries
short of the limit, alone in a working queue. -/
theorem System.run_failing_signals (env : Env) (hfail : ∀ k, 80 ≤ env.draw k) (d : Nat) :
    ∀ (n fuel : Nat) (s : emailService) (j : EmailJob), s.queue.Ready [j] → s.timers = [] →
      j.Retries + (d : Int) = s.maxRetries → 2 * d + 1 ≤ fuel →
      (System.run env fuel n s).2.signals = s.signals ++ failingSignals d := by
  induction d with
  | zero =>
    intro n fuel s j hq ht hmax hfuel
    obtain ⟨f, rfl⟩ : ∃ f, fuel = f + 1 := ⟨fuel - 1, by omega⟩
    have hret : j.Retries = s.maxRetries := by simpa using hmax
    obtain ⟨s1, hstep, hq1, ht1, hsig⟩ :=
      System.step_dead_letter_signals env n s j hq ht (hfail n) (by omega)
    have hrest := System.run_quiescent env f (n + 1) s1 hq1 ht1
    simp only [System.run, hstep, hrest, hsig, failingSignals]
  | succ d ih =>
    intro n fuel s j hq ht hmax hfuel
    obtain ⟨f, rfl⟩ : ∃ f, fuel = f + 2 := ⟨fuel - 2, by omega⟩
    have hlt : j.Retries < s.maxRetries := by push_cast at hmax; omega
    obtain ⟨s1, hstep1, hq1, ht1, hmax1, hsig1⟩ :=
      System.step_retry_signals env n s j hq ht (hfail n) hlt
    obtain ⟨s2, hstep2, hq2, ht2, hmax2, hsig2⟩ :=
      System.step_fire_signals env (n + 1) s1 _ hq1 ht1
    have hmaxj : ({ j with Retries := j.Retries + 1 } : EmailJob).Retries + (d : Int) =
        s2.maxRetries := by
      rw [hmax2, hmax1]; push_cast at hmax; simp only; omega
    have h := ih (n + 1 + 1) f s2 _ hq2 ht2 hmaxj (by omega)
    simp only [System.run, hstep1, hstep2, failingSignals]
    rw [h, hsig2, hsig1]
    simp

/-- **C13.** A job with `Retries = 0` is submitted through `EnqueueEmail` to a
service with `maxRetries = m` whose working queue is empty, and its delivery always
fails. `EnqueueEmail` returns `nil`, and in every execution the signals emitted are,
in order: enqueued; then, `m` times, failed followed by retried; then failed followed
by dead-lettered. So failed is emitted `m + 1` times, retried `m` times, dead-lettered
once and last, enqueued once and first; the one dead-letter entry stored has the reason
"Permanently failed after m retries", which contains the number `m`. -/
theorem C13_signals_of_failing_job (env : Env) (m : Nat) (s : emailService) (job : EmailJob)
    (hfail : ∀ k, 80 ≤ env.draw k) (hmax : s.maxRetries = (m : Int)) (hzero : job.Retries = 0)
    (hq : s.queue.Ready []) (ht : s.timers = []) :
    ∃ s1, s.EnqueueEmail job = .ret (none, s1) ∧
      ∀ fuel, 2 * m + 1 ≤ fuel →
        (System.run env fuel 0 s1).2.signals =
          s.signals ++ Signal.enqueued ::
            ((List.replicate m [Signal.failed, Signal.retried]).flatten ++
              [Signal.failed, Signal.deadLettered]) ∧
        ((List.replicate m [Signal.failed, Signal.retried]).flatten ++
          [Signal.failed, Signal.deadLettered]).count .failed = m + 1 ∧
        ((List.replicate m [Signal.failed, Signal.retried]).flatten ++
          [Signal.failed, Signal.deadLettered]).count .retried = m ∧
        ((List.replicate m [Signal.failed, Signal.retried]).flatten ++
          [Signal.failed, Signal.deadLettered]).count .deadLettered = 1 ∧
        ((List.replicate m [Signal.failed, Signal.retried]).flatten ++
          [Signal.failed, Signal.deadLettered]).count .enqueued = 0 ∧
        (System.run env fuel 0 s1).2.dlq.failedJobs = s.dlq.failedJobs ++
          [⟨{ job with Retries := (m : Int) },
            "Permanently failed after " ++ toString m ++ " retries", env.now (2 * m)⟩] ∧
        ∃ pre post, "Permanently failed after " ++ toString m ++ " retries" =
          pre ++ toString m ++ post := by
  obtain ⟨s1, he, hq1, hsig1, ht1, hdlq1, hmax1⟩ := emailService.EnqueueEmail_ready s job hq
  refine ⟨s1, he, fun fuel hfuel => ?_⟩
  have hd : job.Retries + (m : Int) = s1.maxRetries := by rw [hzero, hmax1, hmax]; simp
  have hrun := System.run_failing_signals env hfail m 0 fuel s1 job hq1 (by rw [ht1, ht]) hd hfuel
  obtain ⟨-, -, hdlq⟩ :=
    System.run_failing_complete env hfail m 0 fuel s1 job hq1 (by rw [ht1, ht]) hd hfuel
  obtain ⟨c1, c2, c3, c4, -, -⟩ := failingSignals_counts m
  rw [failingSignals_shape] at hrun c1 c2 c3 c4
  refine ⟨?_, c1, c2, c3, c4, ?_, ⟨"Permanently failed after ", " retries", rfl⟩⟩
  · rw [hrun, hsig1]
    simp
  · rw [hdlq, hdlq1, hmax1, hmax, Nat.zero_add]
    rfl

/-- Instance of C13, the scenario `max_retries = 2`: enqueued, then failed, retried,
failed, retried, failed, dead-lettered, and a reason containing "2". -/
theorem C13_signals_of_failing_job_witness :
    ∃ s1, (sampleService [] 2).EnqueueEmail sampleJob = .ret (none, s1) ∧
      (System.run failingEnv 5 0 s1).2.signals =
        [.enqueued, .failed, .retried, .failed, .retried, .failed, .deadLettered] ∧
      (System.run failingEnv 5 0 s1).2.dlq.failedJobs =
        [⟨{ sampleJob with Retries := 2 }, "Permanently failed after 2 retries", 4⟩] := by
  obtain ⟨s1, he, h⟩ := C13_signals_of_failing_job failingEnv 2 (sampleService [] 2) sampleJob
    (fun _ => (by decide : 80 ≤ 99)) rfl rfl ⟨by decide, rfl, rfl, by decide⟩ rfl
  obtain ⟨hsig, -, -, -, -, hdlq, -⟩ := h 5 (by decide)
  exact ⟨s1, he, hsig, hdlq⟩

end EmailQueue
